/-
  Verification of the ARR (annual recurring revenue) computation and
  attribution engine of the Dazos CFO Copilot backend (`backend/main.py`).

  The Python source is shallowly embedded in Lean 4:
  * Python `str` is modelled by `String` (the repository only manipulates
    ASCII product names, stages and record types; `str.strip`, `str.lower`,
    `str.split` are modelled on the ASCII whitespace set).
  * Python `float` monetary amounts are modelled by `ℚ`; `round(x, 2)` is
    modelled by `round2` (round half up at two decimals — the repository's
    amounts never hit a representable tie, so the tie-breaking direction is
    immaterial to every statement below).
  * Python `dict` (insertion ordered) is modelled by an association list,
    with `dict.get` returning the value of the last binding of a key.
  * Python `datetime.date` is modelled by `Date3` (proleptic Gregorian
    year/month/day with lexicographic comparison, as in CPython);
    `date.isoformat`/`date.fromisoformat` are mutually inverse, so snapshot
    payloads are modelled as carrying the date value itself.
-/
import Mathlib

set_option maxRecDepth 100000

namespace DazosArr

/-! ## Python string primitives -/

/-- ASCII whitespace recognised by Python `str.strip()` / `str.split()`. -/
def isPyWs (c : Char) : Bool :=
  c = ' ' || c = '\t' || c = '\n' || c = '\x0d' || c = '\x0b' || c = '\x0c'

/-- `str.strip()` on the underlying character list. -/
def stripData (l : List Char) : List Char :=
  ((l.dropWhile isPyWs).reverse.dropWhile isPyWs).reverse

/-- Python `s.strip()`. -/
def stripStr (s : String) : String := ⟨stripData s.data⟩

/-- Python `s.lower()` (ASCII). -/
def lowerStr (s : String) : String := ⟨s.data.map Char.toLower⟩

/-- The maximal whitespace-separated words of a character list
(Python `str.split()` with no argument). -/
def wordsAux : List Char → List Char → List (List Char)
  | [], cur => if cur.isEmpty then [] else [cur.reverse]
  | c :: t, cur =>
    if isPyWs c then
      if cur.isEmpty then wordsAux t [] else cur.reverse :: wordsAux t []
    else wordsAux t (c :: cur)

/-- Python `" ".join(s.split())`: collapse internal whitespace runs to a
single space and drop edge whitespace. -/
def collapseWs (s : String) : String :=
  ⟨(List.intercalate [' '] (wordsAux s.data []))⟩

/-- `pat` occurs as a contiguous infix of `l`. -/
def infixAux (pat : List Char) : List Char → Bool
  | [] => pat.isEmpty
  | l@(_ :: t) => pat.isPrefixOf l || infixAux pat t

/-- Python `a in b` for strings (substring containment). -/
def pyIn (a b : String) : Bool := infixAux a.data b.data

/-- Python `a or b` for strings (`""` is falsy). -/
def pyOrStr (a b : String) : String := if a = "" then b else a

/-! ## Dates -/

/-- CPython `datetime.date`: proleptic Gregorian calendar triple. -/
structure Date3 where
  year : Nat
  month : Nat
  day : Nat
deriving DecidableEq, Repr

/-- CPython date ordering (lexicographic on year, month, day). -/
def dateLt (a b : Date3) : Bool :=
  a.year < b.year ||
    (a.year = b.year && (a.month < b.month ||
      (a.month = b.month && a.day < b.day)))

def isLeapYear (y : Nat) : Bool :=
  y % 4 = 0 && (y % 100 ≠ 0 || y % 400 = 0)

/-- `calendar.monthrange(y, m)[1]`: number of days in a month. -/
def daysInMonth (y m : Nat) : Nat :=
  if m = 2 then (if isLeapYear y then 29 else 28)
  else if m = 4 || m = 6 || m = 9 || m = 11 then 30
  else 31

/-- `today.replace(day=1) - timedelta(days=1)`: the last calendar day of
the month before `today`. -/
def lastDayOfPrevMonth (t : Date3) : Date3 :=
  if t.month = 1 then ⟨t.year - 1, 12, 31⟩
  else ⟨t.year, t.month - 1, daysInMonth t.year (t.month - 1)⟩

/-- Validity check performed by the `datetime.date` constructor
(raises `ValueError` on violation). -/
def validDate (y m d : Nat) : Bool :=
  1 ≤ m && m ≤ 12 && 1 ≤ d && d ≤ daysInMonth y m

/-! ## Association lists as Python dicts -/

/-- Python `dict.get(k)`: the value of the *last* binding of `k`
(later assignments override earlier ones), `None` when absent. -/
def dictGet {α β : Type} [BEq α] (l : List (α × β)) (k : α) : Option β :=
  (l.reverse.find? (fun p => p.1 == k)).map (·.2)

/-- Replace the value bound to `k` (Python `d[k] = f d[k]` on a dict whose
keys are unique; applied to every binding of `k` for totality). -/
def updateAt {α β : Type} [BEq α] (l : List (α × β)) (k : α) (f : β → β) :
    List (α × β) :=
  l.map (fun p => if p.1 == k then (p.1, f p.2) else p)

/-! ## Product classification tables (`backend/main.py`) -/

/-- `ARR_MULTIPLIER = 12`. -/
def ARR_MULTIPLIER : ℚ := 12

/-- `ARR_PRODUCT_EXCLUDE` (a `frozenset`; modelled as a list — only
membership and iteration under `any` are used, both order-insensitive). -/
def ARR_PRODUCT_EXCLUDE : List String :=
  ["iverify monthly credits", "verify monthly credits", "kipu api"]

/-- `ARR_PRODUCT_COLUMNS` (display order). -/
def ARR_PRODUCT_COLUMNS : List String :=
  ["CRM Platform", "CRM Billing Platform", "Add. CRM Seats", "MR Platform",
   "IQ Platform", "Add. MR/ IQ Locations", "iCampaign Platform", "Premium Support"]

/-- `_ARR_PRODUCT_NORMALIZED = {p.strip().lower(): p for p in ARR_PRODUCT_COLUMNS}`. -/
def ARR_PRODUCT_NORMALIZED : List (String × String) :=
  ARR_PRODUCT_COLUMNS.map (fun p => (lowerStr (stripStr p), p))

/-- `_ARR_SF_TO_CANONICAL` (insertion order preserved). -/
def ARR_SF_TO_CANONICAL : List (String × String) :=
  [("dazos crm platform (legacy)", "CRM Platform"),
   ("dazos crm platform (includes 5 seats)", "CRM Platform"),
   ("billing company crm platform (includes 5 seats)", "CRM Billing Platform"),
   ("additional crm seats", "Add. CRM Seats"),
   ("marketing reports platform fee (includes 1 ein)", "MR Platform"),
   ("iq platform fee (includes 1 ein)", "IQ Platform"),
   ("additional iq/mr eins", "Add. MR/ IQ Locations"),
   ("additional iqmr eins", "Add. MR/ IQ Locations")]

/-- `CLOSED_STAGES` (a `frozenset`; only membership is used). -/
def CLOSED_STAGES : List String := ["Closed Won", "Closed Lost"]

/-- `DEFAULT_SEGMENT = "SMB/ MM"`. -/
def DEFAULT_SEGMENT : String := "SMB/ MM"

/-- The part of `l` strictly after the last occurrence of `" - "`,
if `" - "` occurs at all (`s.rsplit(" - ", 1)[-1]` when `" - " in s`). -/
def afterLastSepAux : List Char → Option (List Char)
  | [] => none
  | c :: rest =>
    match afterLastSepAux rest with
    | some r => some r
    | none =>
      if [' ', '-', ' '].isPrefixOf (c :: rest) then some ((c :: rest).drop 3)
      else none

/-- `_normalized_product_name`: the product part after the last `" - "`
if present; `""` for an empty or whitespace-only (or `None`) name. -/
def normalizedProductName (product_name : Option String) : String :=
  match product_name with
  | none => ""
  | some p =>
    let s := stripStr p
    if s = "" then ""
    else
      match afterLastSepAux s.data with
      | none => s
      | some suffix => pyOrStr (stripStr ⟨suffix⟩) s

/-- `_is_arr_excluded_product`: whitespace-collapse and lowercase the name,
then match the exclusion set exactly, or by containment of an exclusion
phrase within the name. -/
def isArrExcludedProduct (product_name : Option String) : Bool :=
  match product_name with
  | none => false
  | some p =>
    if stripStr p = "" then false
    else
      let key := lowerStr (stripStr (collapseWs p))
      if key = "" then false
      else if ARR_PRODUCT_EXCLUDE.contains key then true
      else ARR_PRODUCT_EXCLUDE.any (fun exc => pyIn exc key)

/-- `_match_arr_product`: SF-to-canonical exact, then contains (either
direction), then canonical-table exact, then contains (either direction);
first match in table insertion order wins. -/
def matchArrProduct (sf_product_name : Option String) : Option String :=
  match sf_product_name with
  | none => none
  | some s0 =>
    let raw := stripStr s0
    if raw = "" then none
    else
      let key := lowerStr raw
      match dictGet ARR_SF_TO_CANONICAL key with
      | some c => some c
      | none =>
        match ARR_SF_TO_CANONICAL.find? (fun p => pyIn p.1 key || pyIn key p.1) with
        | some p => some p.2
        | none =>
          match dictGet ARR_PRODUCT_NORMALIZED key with
          | some c => some c
          | none =>
            match ARR_PRODUCT_NORMALIZED.find? (fun p => pyIn p.1 key || pyIn key p.1) with
            | some p => some p.2
            | none => none

/-- `_is_renewal_record_type`: case-insensitive trimmed equality to "renewal". -/
def isRenewalRecordType (name : Option String) : Bool :=
  lowerStr (stripStr (name.getD "")) == "renewal"

/-! ## Rounding -/

/-- Python `round(x, 2)` on the repository's amounts. -/
def round2 (x : ℚ) : ℚ := (Rat.floor (x * 100 + 1 / 2) : ℤ) / 100

/-- Python `sum` (left fold from 0). -/
def sumQ (l : List ℚ) : ℚ := l.foldl (· + ·) 0

/-! ## Data model

Only the fields read by the modelled functions are carried; the remaining
columns (`name`, `amount`, `type`, `industry`, address fields, timestamps,
`quantity`, `unit_price`) are copied verbatim by the snapshot encoder and
never read by any modelled function, so they are omitted.  Nullable columns
are `Option`s. -/

/-- `models.Opportunity` (the fields read by the ARR engine). -/
structure Opp where
  sf_id : String
  stage_name : Option String
  record_type_name : Option String
  account_id : Option String
  account_name : Option String
  close_date : Option Date3
deriving DecidableEq, Repr

/-- `models.OpportunityLineItem` (the fields read by the ARR engine). -/
structure LineItem where
  opportunity_sf_id : String
  product_name : Option String
  total_price : Option ℚ
deriving DecidableEq, Repr

/-- `models.Account` (the fields read by the ARR engine). -/
structure Account where
  sf_id : String
  segment : Option String
deriving DecidableEq, Repr

/-- Row grouping key: `(o.account_id, o.account_name or None)`. -/
abbrev AccKey := Option String × Option String

/-- Python `account_name or None` (the empty string is falsy). -/
def nameKey (n : Option String) : Option String :=
  match n with
  | none => none
  | some s => if s = "" then none else some s

/-- The grouping key of an opportunity. -/
def oppKey (o : Opp) : AccKey := (o.account_id, nameKey o.account_name)

/-- Python `aname or "—"`. -/
def displayName (n : Option String) : String :=
  match n with
  | none => "—"
  | some s => if s = "" then "—" else s

/-- One row of the ARR-by-account-product table.  `by_product` is the
insertion-ordered dict `{p: arr for p in products}`. -/
structure ArrRow where
  account_id : Option String
  account_name : String
  segment : Option String
  subscription_end_date : Option Date3
  by_product : List (String × ℚ)
  total_arr : ℚ
deriving DecidableEq, Repr

/-- The aggregation result shape shared by
`_get_arr_by_account_product_data` and `_arr_from_snapshot_payload`. -/
structure ArrResult where
  products : List String
  rows : List ArrRow
  total_by_product : List (String × ℚ)
  grand_total : ℚ
deriving DecidableEq, Repr

/-! ## ARR aggregation engine -/

/-- `list(ARR_PRODUCT_COLUMNS) + ["Other"]`. -/
def arrProducts : List String := ARR_PRODUCT_COLUMNS ++ ["Other"]

/-- The open-opportunity store filter:
`stage_name IS NOT NULL AND stage_name NOT IN CLOSED_STAGES`. -/
def isOpenOpp (o : Opp) : Bool :=
  match o.stage_name with
  | none => false
  | some s => !CLOSED_STAGES.contains s

/-- The open opportunities of the live store (`q_open`). -/
def liveOpenOpps (opportunities : List Opp) : List Opp :=
  opportunities.filter isOpenOpp

/-- `renewal_opps`: open opportunities whose record type is Renewal. -/
def liveRenewalOpps (opportunities : List Opp) : List Opp :=
  (liveOpenOpps opportunities).filter (fun o => isRenewalRecordType o.record_type_name)

/-- `opp_to_account = {o.sf_id: (o.account_id, o.account_name or None) for o in renewal_opps}`. -/
def oppToAccount (renewal_opps : List Opp) : List (String × AccKey) :=
  renewal_opps.map (fun o => (o.sf_id, oppKey o))

/-- The body of the line-item loop of `_get_arr_by_account_product_data`
(and, after its extra membership guard, of `_arr_from_snapshot_payload`):
skip orphans, skip when the normalized or the raw product name is
ARR-excluded, skip empty normalized names, otherwise accumulate
`total_price or 0` into the `account × canonical` cell.  The per-account
dict `{p: 0.0 for p in products}` is modelled as the constant-zero
function, faithful because the updated key is always a canonical column or
"Other" and only `products` keys are read downstream. -/
def bapStep (opp_to_account : List (String × AccKey))
    (m : List (AccKey × (String → ℚ))) (li : LineItem) :
    List (AccKey × (String → ℚ)) :=
  match dictGet opp_to_account li.opportunity_sf_id with
  | none => m
  | some acc =>
    let raw := normalizedProductName li.product_name
    if isArrExcludedProduct (some raw) || isArrExcludedProduct li.product_name then m
    else if raw = "" then m
    else
      let canonical := (matchArrProduct (some raw)).getD "Other"
      let m' := if (dictGet m acc).isNone then m ++ [(acc, fun _ => 0)] else m
      updateAt m' acc (fun b c => if c = canonical then b c + li.total_price.getD 0 else b c)

/-- The body of the `account_end_date` loop: per key, keep the latest
non-null close date (a null close date is stored only for a key's first
opportunity). -/
def endDateStep (d : List (AccKey × Option Date3)) (o : Opp) :
    List (AccKey × Option Date3) :=
  let key := oppKey o
  match dictGet d key with
  | none => d ++ [(key, o.close_date)]
  | some stored =>
    match o.close_date with
    | none => d
    | some cd =>
      match stored with
      | none => updateAt d key (fun _ => some cd)
      | some st => if dateLt st cd then updateAt d key (fun _ => some cd) else d

/-- Stable insertion preserving first-seen order among equal totals. -/
def insertRowDesc (r : ArrRow) : List ArrRow → List ArrRow
  | [] => [r]
  | x :: xs => if x.total_arr ≤ r.total_arr then r :: x :: xs else x :: insertRowDesc r xs

/-- `rows.sort(key=lambda x: -x["total_arr"])`: Python's sort is stable, so
any stable descending sort produces the identical list; modelled by stable
insertion sort. -/
def sortRowsDesc : List ArrRow → List ArrRow
  | [] => []
  | r :: rs => insertRowDesc r (sortRowsDesc rs)

/-- Build one output row from an accumulated `(key, MRR-by-bucket)` cell.
`seg` is the already-computed `segment` value of the row (the only point
where the live and the snapshot paths differ). -/
def rowOfCell (account_end_date : List (AccKey × Option Date3))
    (seg : Option String) (kv : AccKey × (String → ℚ)) : ArrRow :=
  let bpArr := fun p => round2 (kv.2 p * ARR_MULTIPLIER)
  let total_arr := round2 (sumQ (arrProducts.map bpArr))
  { account_id := kv.1.1
    account_name := displayName kv.1.2
    segment := seg
    subscription_end_date := (dictGet account_end_date kv.1).join
    by_product := arrProducts.map (fun p => (p, bpArr p))
    total_arr := total_arr }

/-- Row segment in `_get_arr_by_account_product_data`:
`seg = account_segment.get(aid) if aid else None; (seg or "").strip() or DEFAULT_SEGMENT`.
The source queries only the account ids that occur as row keys; modelled as
a lookup over the full accounts table, which agrees on every queried id. -/
def liveRowSegment (account_segment : List (String × Option String))
    (aid : Option String) : Option String :=
  let seg : Option String :=
    match aid with
    | none => none
    | some a => if a = "" then none else (dictGet account_segment a).join
  some (pyOrStr (stripStr (seg.getD "")) DEFAULT_SEGMENT)

/-- `_get_arr_by_account_product_data` over in-memory store contents
(the store queries are modelled as list filters in store order). -/
def getArrByAccountProductData (accounts : List Account)
    (opportunities : List Opp) (line_items : List LineItem) : ArrResult :=
  let renewal_opps := liveRenewalOpps opportunities
  let renewal_sf_ids := renewal_opps.map (·.sf_id)
  let opp_to_account := oppToAccount renewal_opps
  if renewal_sf_ids.isEmpty then
    { products := [], rows := [], total_by_product := [], grand_total := 0 }
  else
    let lines := line_items.filter (fun li => renewal_sf_ids.contains li.opportunity_sf_id)
    let bap := lines.foldl (bapStep opp_to_account) []
    let account_end_date := renewal_opps.foldl endDateStep []
    let account_segment := accounts.map (fun a => (a.sf_id, a.segment))
    let rows := bap.map (fun kv =>
      rowOfCell account_end_date (liveRowSegment account_segment kv.1.1) kv)
    { products := arrProducts
      rows := sortRowsDesc rows
      total_by_product := arrProducts.map (fun p =>
        (p, round2 (sumQ (bap.map (fun kv => round2 (kv.2 p * ARR_MULTIPLIER))))))
      grand_total := round2 (sumQ (rows.map (·.total_arr))) }

/-! ## Snapshot codec -/

/-- One entry of the snapshot payload's `accounts` array (the fields read
by `_arr_from_snapshot_payload`; the encoder always writes a string
segment). -/
structure PayloadAccount where
  sf_id : String
  segment : String
deriving DecidableEq, Repr

/-- The snapshot payload
`{"accounts": [...], "opportunities": [...], "opportunity_line_items": [...]}`.
Temporal fields are ISO-8601 text in the source; since
`date.fromisoformat ∘ date.isoformat = id`, the payload is modelled as
carrying the date values. -/
structure Payload where
  accounts : List PayloadAccount
  opportunities : List Opp
  opportunity_line_items : List LineItem
deriving DecidableEq, Repr

/-- The payload built by `_take_salesforce_eod_snapshot`: full copies of
the three stores, with the account segment defaulted at encode time
(`(a.segment or "").strip() or DEFAULT_SEGMENT`). -/
def takeSalesforceEodSnapshot (accounts : List Account)
    (opportunities : List Opp) (line_items : List LineItem) : Payload :=
  { accounts := accounts.map (fun a =>
      { sf_id := a.sf_id
        segment := pyOrStr (stripStr (a.segment.getD "")) DEFAULT_SEGMENT })
    opportunities := opportunities
    opportunity_line_items := line_items }

/-- Row segment in `_arr_from_snapshot_payload`:
`seg = account_segment.get(aid) if aid else DEFAULT_SEGMENT` over the
payload's already-defaulted segments (no fallback when the account id has
no matching payload account). -/
def snapshotRowSegment (account_segment : List (String × String))
    (aid : Option String) : Option String :=
  match aid with
  | none => some DEFAULT_SEGMENT
  | some a =>
    if a = "" then some DEFAULT_SEGMENT else dictGet account_segment a

/-- `_arr_from_snapshot_payload`: recompute the ARR table from the payload
arrays.  The open filter is `(o.get("stage_name") or "") not in CLOSED_STAGES`,
the renewal test inlines the body of `_is_renewal_record_type`, and the row
segment is `snapshotRowSegment`. -/
def arrFromSnapshotPayload (payload : Payload) : ArrResult :=
  let opportunities := payload.opportunities
  let open_opps := opportunities.filter (fun o =>
    !CLOSED_STAGES.contains (o.stage_name.getD ""))
  let renewal_opps := open_opps.filter (fun o => isRenewalRecordType o.record_type_name)
  let renewal_sf_ids := renewal_opps.map (·.sf_id)
  let opp_to_account := oppToAccount renewal_opps
  if renewal_sf_ids.isEmpty then
    { products := arrProducts, rows := [], total_by_product := [], grand_total := 0 }
  else
    let account_segment := payload.accounts.map (fun a =>
      (a.sf_id, pyOrStr (stripStr a.segment) DEFAULT_SEGMENT))
    let bap := payload.opportunity_line_items.foldl (fun m li =>
      if !renewal_sf_ids.contains li.opportunity_sf_id then m
      else bapStep opp_to_account m li) []
    let account_end_date := renewal_opps.foldl endDateStep []
    let rows := bap.map (fun kv =>
      rowOfCell account_end_date (snapshotRowSegment account_segment kv.1.1) kv)
    { products := arrProducts
      rows := sortRowsDesc rows
      total_by_product := arrProducts.map (fun p =>
        (p, round2 (sumQ (bap.map (fun kv => round2 (kv.2 p * ARR_MULTIPLIER))))))
      grand_total := round2 (sumQ (rows.map (·.total_arr))) }

/-! ## Temporal resolver

The two regex scans (`\b(202[0-9])-(\d{1,2})-(\d{1,2})\b` and the
month/year lookahead) are modelled by direct character scanners.  Because
`\d{1,2}` and `\d{4}` are bounded repetitions followed by a literal or a
word boundary, a regex match at a position succeeds exactly when the
maximal digit run there has the required length and the following
character closes it, which is what the scanners test.  `\b` is modelled by
tracking whether the previous character is a word character. -/

/-- Regex word character (`\w`), ASCII model. -/
def isWordChar (c : Char) : Bool := c.isAlphanum || c = '_'

/-- Numeric value of a digit run. -/
def natOfDigits (l : List Char) : Nat :=
  l.foldl (fun n c => n * 10 + (c.toNat - 48)) 0

/-- `_MONTH_NAMES` (dict; iteration in insertion order). -/
def MONTH_NAMES : List (String × Nat) :=
  [("january", 1), ("jan", 1), ("february", 2), ("feb", 2), ("march", 3), ("mar", 3),
   ("april", 4), ("apr", 4), ("may", 5), ("june", 6), ("jun", 6), ("july", 7), ("jul", 7),
   ("august", 8), ("aug", 8), ("september", 9), ("sep", 9), ("sept", 9), ("october", 10),
   ("oct", 10), ("november", 11), ("nov", 11), ("december", 12), ("dec", 12)]

/-- The character class `[\s'\-]` of the year regexes. -/
def isYearSepChar (c : Char) : Bool := isPyWs c || c = '\'' || c = '-'

/-- `re.match(r"[\s'\-]*(\d{4})\b", rest)`: the matched 4-digit year. -/
def fourDigitYear (rest : List Char) : Option Nat :=
  let r1 := rest.dropWhile isYearSepChar
  let run := r1.takeWhile Char.isDigit
  if run.length = 4 &&
      (match r1.drop 4 with | [] => true | c :: _ => !isWordChar c) then
    some (natOfDigits run)
  else none

/-- `re.match(r"[\s'\-]*'?(\d{2})\b", rest)`: the matched 2-digit year
(the optional apostrophe is already consumed by the leading class). -/
def twoDigitYear (rest : List Char) : Option Nat :=
  let r1 := rest.dropWhile isYearSepChar
  let run := r1.takeWhile Char.isDigit
  if run.length = 2 &&
      (match r1.drop 2 with | [] => true | c :: _ => !isWordChar c) then
    some (natOfDigits run)
  else none

/-- The 2-digit fallback of the per-occurrence year scan:
`y = 2000 + yy if yy < 50 else 1900 + yy`, accepted in 2020–2040. -/
def twoDigitTry (rest : List Char) (month : Nat) : Option (Nat × Nat) :=
  match twoDigitYear rest with
  | some yy =>
    let y := if yy < 50 then 2000 + yy else 1900 + yy
    if 2020 ≤ y && y ≤ 2040 then some (y, month) else none
  | none => none

/-- Per-occurrence year scan: `rest = q_lower[end:end + 15].strip()`, then
the 4-digit form, falling back to the 2-digit form (also when the 4-digit
year is out of the 2020–2040 range). -/
def tryYearAt (afterName : List Char) (month : Nat) : Option (Nat × Nat) :=
  let rest := stripData (afterName.take 15)
  match fourDigitYear rest with
  | some y => if 2020 ≤ y && y ≤ 2040 then some (y, month) else twoDigitTry rest month
  | none => twoDigitTry rest month

/-- `re.finditer(re.escape(name), q_lower)` with per-occurrence year scan,
first success wins.  Occurrences are enumerated at every position; this
agrees with `finditer`'s non-overlapping enumeration because no month name
has a nonempty proper border (none can overlap itself). -/
def tryOccurrences (name : List Char) (month : Nat) : List Char → Option (Nat × Nat)
  | [] => none
  | l@(_ :: t) =>
    if name.isPrefixOf l then
      match tryYearAt (l.drop name.length) month with
      | some r => some r
      | none => tryOccurrences name month t
    else tryOccurrences name month t

/-- `_parse_renewal_month_from_question`: months are tried in the table's
insertion order (the `if name not in q_lower: continue` guard is subsumed
by the occurrence scan finding nothing). -/
def parseRenewalMonthFromQuestion (q : String) : Option (Nat × Nat) :=
  let ql := (lowerStr q).data
  MONTH_NAMES.findSome? (fun nm => tryOccurrences nm.1.data nm.2 ql)

/-- Anchored attempt of `\b(202[0-9])-(\d{1,2})-(\d{1,2})\b`;
`prevWord` tells whether the previous character is a word character. -/
def isoTryAt (prevWord : Bool) (l : List Char) : Option (Nat × Nat × Nat) :=
  if prevWord then none
  else
    match l with
    | '2' :: '0' :: '2' :: c :: '-' :: rest =>
      if c.isDigit then
        let mrun := rest.takeWhile Char.isDigit
        if 1 ≤ mrun.length && mrun.length ≤ 2 then
          match rest.drop mrun.length with
          | '-' :: rest2 =>
            let drun := rest2.takeWhile Char.isDigit
            if 1 ≤ drun.length && drun.length ≤ 2 &&
                (match rest2.drop drun.length with
                 | [] => true
                 | c2 :: _ => !isWordChar c2) then
              some (2020 + (c.toNat - 48), natOfDigits mrun, natOfDigits drun)
            else none
          | _ => none
        else none
      else none
    | _ => none

/-- `re.search` scan for the ISO date pattern (first match, left to right). -/
def isoSearch (prevWord : Bool) : List Char → Option (Nat × Nat × Nat)
  | [] => isoTryAt prevWord []
  | l@(c :: t) =>
    match isoTryAt prevWord l with
    | some r => some r
    | none => isoSearch (isWordChar c) t

/-- Anchored attempt of `\b(as of|on|in)\s+`. -/
def triggerTryAt (prevWord : Bool) (l : List Char) : Bool :=
  let nextIsSpace : List Char → Bool := fun rest =>
    match rest with
    | c :: _ => isPyWs c
    | [] => false
  !prevWord &&
    (("as of".data.isPrefixOf l && nextIsSpace (l.drop 5)) ||
     ("on".data.isPrefixOf l && nextIsSpace (l.drop 2)) ||
     ("in".data.isPrefixOf l && nextIsSpace (l.drop 2)))

/-- `re.search(r"\b(as of|on|in)\s+", q_lower)` as a Boolean scan. -/
def triggerSearch (prevWord : Bool) : List Char → Bool
  | [] => triggerTryAt prevWord []
  | l@(c :: t) => triggerTryAt prevWord l || triggerSearch (isWordChar c) t

/-- `_parse_date_from_question` (with `today` passed explicitly; the
source defaults it to the current EST date): "last month" first, then a
literal ISO date (invalid calendar dates raise `ValueError` and fall
through), then a month/year phrase guarded by a trigger word. -/
def parseDateFromQuestion (q : String) (today : Date3) : Option Date3 :=
  let ql := lowerStr q
  if pyIn "last month" ql then some (lastDayOfPrevMonth today)
  else
    let isoDate : Option Date3 :=
      match isoSearch false q.data with
      | some (y, m, d) => if validDate y m d then some ⟨y, m, d⟩ else none
      | none => none
    match isoDate with
    | some d => some d
    | none =>
      match parseRenewalMonthFromQuestion q with
      | some (year, month) =>
        if pyIn "as of" ql || pyIn "on " ql || pyIn " in " ql ||
            triggerSearch false ql.data then
          some ⟨year, month, daysInMonth year month⟩
        else none
      | none => none

/-! ## Salesforce sync cycle (`_run_salesforce_sync`)

The sync runs inside one storage session and commits nothing itself; a
failure path calls `db.rollback()` and returns, so the committed store is
unchanged on failure.  The function is modelled as a state transformer
from the committed store to (resulting committed-store contents if the
caller commits, structured result).  Connector fetches are modelled as
`Except` values (the connector raises on failure); per-record field
parsing (floats, dates) is orthogonal to the control flow and the fetched
records are therefore taken already converted, keeping the `if not sf_id:
continue` guards (a missing id is modelled as `""`). -/

/-- The three Salesforce-backed stores. -/
structure SfStore where
  accounts : List Account
  opportunities : List Opp
  line_items : List LineItem
deriving DecidableEq, Repr

/-- The structured dict returned by `_run_salesforce_sync`. -/
structure SyncResult where
  ok : Bool
  error : Option String
  synced_accounts : Option Nat
  synced_opportunities : Option Nat
  synced_line_items : Option Nat
  renewal_opportunities_count : Option Nat
  message : Option String
deriving DecidableEq, Repr

/-- A failure result `{"ok": False, "error": msg}`. -/
def syncFailure (msg : String) : SyncResult :=
  { ok := false, error := some msg, synced_accounts := none,
    synced_opportunities := none, synced_line_items := none,
    renewal_opportunities_count := none, message := none }

/-- `_run_salesforce_sync`: delete-and-reinsert each entity type in turn;
any fetch failure rolls the whole pending cycle back and reports a
structured error. -/
def runSalesforceSync (st : SfStore) (configured : Bool)
    (fetch_accounts : Except String (List Account))
    (fetch_opps : Except String (List Opp))
    (fetch_lines : Except String (List LineItem)) : SfStore × SyncResult :=
  if !configured then
    (st, syncFailure "Salesforce not configured. Set SALESFORCE_USERNAME, SALESFORCE_PASSWORD, and SALESFORCE_SECURITY_TOKEN in backend/.env.")
  else
    match fetch_accounts with
    | .error e => (st, syncFailure ("Accounts sync failed: " ++ e))
    | .ok account_records =>
      let new_accounts := account_records.filter (fun a => a.sf_id ≠ "")
      match fetch_opps with
      | .error e => (st, syncFailure ("Opportunities sync failed: " ++ e))
      | .ok opp_records =>
        let new_opps := opp_records.filter (fun o => o.sf_id ≠ "")
        match fetch_lines with
        | .error e => (st, syncFailure ("OpportunityLineItem sync failed: " ++ e))
        | .ok line_records =>
          let new_lines := line_records.filter (fun li => li.opportunity_sf_id ≠ "")
          let all_open := new_opps.filter isOpenOpp
          let renewal_count :=
            (all_open.filter (fun o => isRenewalRecordType o.record_type_name)).length
          ({ accounts := new_accounts, opportunities := new_opps, line_items := new_lines },
           { ok := true, error := none,
             synced_accounts := some account_records.length,
             synced_opportunities := some opp_records.length,
             synced_line_items := some line_records.length,
             renewal_opportunities_count := some renewal_count,
             message := some "Accounts, opportunities, and opportunity products synced." })

/-! ## Derived notions used in specifications -/

/-- An opportunity that is open and of Renewal record type — the
qualification filter of the ARR engine. -/
def isOpenRenewal (o : Opp) : Bool :=
  isOpenOpp o && isRenewalRecordType o.record_type_name

/-- A line item that is counted by the ARR line loop: neither its
normalized nor its raw product name is ARR-excluded, and its normalized
name is nonempty. -/
def lineCounted (li : LineItem) : Bool :=
  !(isArrExcludedProduct (some (normalizedProductName li.product_name)) ||
      isArrExcludedProduct li.product_name) &&
    !(normalizedProductName li.product_name == "")

/-- The bucket (canonical column or "Other") a counted line item lands in. -/
def lineBucket (li : LineItem) : String :=
  (matchArrProduct (some (normalizedProductName li.product_name))).getD "Other"

/-- A line item that contributes to key `k` under opportunity map `ota`. -/
def lineContributes (ota : List (String × AccKey)) (k : AccKey) (li : LineItem) : Bool :=
  (dictGet ota li.opportunity_sf_id == some k) && lineCounted li

/-- A line item that contributes to cell `(k, c)`. -/
def lineQualifies (ota : List (String × AccKey)) (k : AccKey) (c : String)
    (li : LineItem) : Bool :=
  lineContributes ota k li && (lineBucket li == c)

/-- The accumulated monthly value of cell `(k, c)`. -/
def cellVal (m : List (AccKey × (String → ℚ))) (k : AccKey) (c : String) : ℚ :=
  match dictGet m k with
  | some b => b c
  | none => 0

/-- The monthly recurring revenue attributed by the ARR engine to account
key `k` in bucket `c`: the sum of `total_price` over the counted line
items of `k`'s open renewal opportunities whose bucket is `c`. -/
def arrQualifyingMrr (opportunities : List Opp) (line_items : List LineItem)
    (k : AccKey) (c : String) : ℚ :=
  sumQ (((line_items.filter
      (lineQualifies (oppToAccount (liveRenewalOpps opportunities)) k c)).map
    (fun li => li.total_price.getD 0)))

/-! ## Dict lemmas -/

theorem dictGet_nil {α β : Type} [BEq α] (k : α) :
    dictGet ([] : List (α × β)) k = none := rfl

theorem dictGet_append_single {α β : Type} [BEq α] (l : List (α × β)) (x : α × β) (k : α) :
    dictGet (l ++ [x]) k = if x.1 == k then some x.2 else dictGet l k := by
  unfold dictGet
  rw [List.reverse_append]
  cases h : x.1 == k
  · simp [List.find?_cons, h]
  · simp [List.find?_cons, h]

theorem mem_of_dictGet_some {α β : Type} [BEq α] [LawfulBEq α]
    {l : List (α × β)} {k : α} {v : β} (h : dictGet l k = some v) : (k, v) ∈ l := by
  unfold dictGet at h
  cases hf : l.reverse.find? (fun p => p.1 == k) with
  | none => rw [hf] at h; cases h
  | some a =>
    rw [hf] at h
    have hm : a ∈ l.reverse := List.mem_of_find?_eq_some hf
    have hp := List.find?_some hf
    have hk : a.1 = k := by simpa using hp
    have hv : a.2 = v := by simpa using h
    have : a = (k, v) := by
      cases a
      simp_all
    rw [← this]
    exact List.mem_reverse.mp hm

theorem updateAt_map_fst {α β : Type} [BEq α] (l : List (α × β)) (k : α) (f : β → β) :
    (updateAt l k f).map Prod.fst = l.map Prod.fst := by
  induction l with
  | nil => rfl
  | cons x t ih =>
    by_cases h : (x.1 == k) = true
    · simp [updateAt, h] at ih ⊢; exact ih
    · simp only [Bool.not_eq_true] at h
      simp [updateAt, h] at ih ⊢; exact ih

theorem dictGet_updateAt {α β : Type} [BEq α] [LawfulBEq α] [DecidableEq α]
    (l : List (α × β)) (k k' : α) (f : β → β) :
    dictGet (updateAt l k f) k' =
      if k = k' then (dictGet l k').map f else dictGet l k' := by
  unfold dictGet updateAt
  rw [← List.map_reverse, List.find?_map]
  have hpred : ((fun p : α × β => p.1 == k') ∘
      (fun p : α × β => if p.1 == k then (p.1, f p.2) else p)) =
      (fun p : α × β => p.1 == k') := by
    funext p
    by_cases h : p.1 = k <;> simp [h]
  rw [hpred]
  cases hf : l.reverse.find? (fun p => p.1 == k') with
  | none => by_cases hkk : k = k' <;> simp [hkk]
  | some a =>
    have hp := List.find?_some hf
    have hk : a.1 = k' := by simpa using hp
    by_cases hkk : k = k'
    · subst hkk
      simp [hk]
    · have hkne : a.1 ≠ k := by
        rw [hk]
        exact fun h => hkk h.symm
      simp [hkk, hkne]

/-! ## String lemmas -/

theorem pyIn_refl (s : String) : pyIn s s = true := by
  unfold pyIn
  cases h : s.data with
  | nil => rfl
  | cons c t =>
    unfold infixAux
    rw [List.isPrefixOf_iff_prefix.mpr (List.prefix_refl _)]
    rfl

theorem all_ws_of_stripData_nil {l : List Char} (h : stripData l = []) :
    ∀ c ∈ l, isPyWs c = true := by
  unfold stripData at h
  have h2 : ∀ c ∈ l.dropWhile isPyWs, isPyWs c = true := by
    intro c hc
    have : (l.dropWhile isPyWs).reverse.dropWhile isPyWs = [] := by
      cases hrev : (l.dropWhile isPyWs).reverse.dropWhile isPyWs with
      | nil => rfl
      | cons x xs => rw [hrev] at h; simp at h
    have hall := List.dropWhile_eq_nil_iff.mp this
    have : c ∈ (l.dropWhile isPyWs).reverse := List.mem_reverse.mpr hc
    exact hall c this
  intro c hc
  rw [← List.takeWhile_append_dropWhile isPyWs l] at hc
  rcases List.mem_append.mp hc with hc | hc
  · exact List.mem_takeWhile_imp hc
  · exact h2 c hc

theorem wordsAux_of_all_ws {l : List Char} (h : ∀ c ∈ l, isPyWs c = true) :
    wordsAux l [] = [] := by
  induction l with
  | nil => rfl
  | cons c t ih =>
    have hc : isPyWs c = true := h c (List.mem_cons_self c t)
    unfold wordsAux
    simp [hc]
    exact ih (fun x hx => h x (List.mem_cons_of_mem c hx))

theorem collapseWs_of_strip_empty {p : String} (h : stripStr p = "") :
    collapseWs p = "" := by
  have hdata : stripData p.data = [] := congrArg String.data h
  have hall := all_ws_of_stripData_nil hdata
  unfold collapseWs
  rw [wordsAux_of_all_ws hall]
  rfl

/-! ## Skipped-line invariance of the ARR aggregation -/

theorem bapStep_skip {ota : List (String × AccKey)}
    {m : List (AccKey × (String → ℚ))} {li : LineItem}
    (h : (isArrExcludedProduct (some (normalizedProductName li.product_name)) ||
          isArrExcludedProduct li.product_name) = true ∨
         normalizedProductName li.product_name = "") :
    bapStep ota m li = m := by
  unfold bapStep
  cases hd : dictGet ota li.opportunity_sf_id with
  | none => rfl
  | some acc =>
    rcases h with h | h
    · simp [h]
    · by_cases hexcl : (isArrExcludedProduct (some (normalizedProductName li.product_name)) ||
          isArrExcludedProduct li.product_name) = true
      · simp [hexcl]
      · simp [hexcl, h]

theorem getArr_append_skipped (A : List Account) (O : List Opp)
    (L : List LineItem) (li : LineItem)
    (h : (isArrExcludedProduct (some (normalizedProductName li.product_name)) ||
          isArrExcludedProduct li.product_name) = true ∨
         normalizedProductName li.product_name = "") :
    getArrByAccountProductData A O (L ++ [li]) = getArrByAccountProductData A O L := by
  unfold getArrByAccountProductData
  by_cases hre : (((liveRenewalOpps O).map (·.sf_id)).isEmpty) = true
  · simp only [hre, if_true]
  · have hlines : List.foldl (bapStep (oppToAccount (liveRenewalOpps O))) []
        ((L ++ [li]).filter (fun x =>
          ((liveRenewalOpps O).map (·.sf_id)).contains x.opportunity_sf_id)) =
        List.foldl (bapStep (oppToAccount (liveRenewalOpps O))) []
        (L.filter (fun x =>
          ((liveRenewalOpps O).map (·.sf_id)).contains x.opportunity_sf_id)) := by
      rw [List.filter_append]
      cases hkeep : ((liveRenewalOpps O).map (·.sf_id)).contains li.opportunity_sf_id with
      | false =>
        simp only [List.filter_cons, hkeep, Bool.false_eq_true, if_false,
          List.filter_nil, List.append_nil]
      | true =>
        simp only [List.filter_cons, hkeep, if_true, List.filter_nil,
          List.foldl_append, List.foldl_cons, List.foldl_nil]
        rw [bapStep_skip h]
    simp only [if_neg hre, hlines]

theorem insertRowDesc_ne_nil (r : ArrRow) (l : List ArrRow) :
    insertRowDesc r l ≠ [] := by
  cases l with
  | nil => simp [insertRowDesc]
  | cons x xs =>
    unfold insertRowDesc
    by_cases h : x.total_arr ≤ r.total_arr <;> simp [h]

theorem sortRowsDesc_eq_nil {l : List ArrRow} : sortRowsDesc l = [] ↔ l = [] := by
  cases l with
  | nil => simp [sortRowsDesc]
  | cons r rs => simp [sortRowsDesc, insertRowDesc_ne_nil]

/-! ## C3: the exclusion decision -/

/-- C3 (amended): a line item on a qualifying opportunity is skipped from
all totals when its normalized **or raw** product name matches the
exclusion set (exactly or by phrase containment) — the raw name does
participate, unlike the claim's "normalized name alone"; and a line item
neither of whose names matches (with nonempty normalized name) is counted
and produces a row. -/
theorem arr_exclusion_uses_normalized_and_raw_name :
    (∀ (A : List Account) (O : List Opp) (L : List LineItem) (li : LineItem),
      (isArrExcludedProduct (some (normalizedProductName li.product_name)) ||
        isArrExcludedProduct li.product_name) = true →
      getArrByAccountProductData A O (L ++ [li]) = getArrByAccountProductData A O L) ∧
    (∀ (name : String) (price : ℚ),
      isArrExcludedProduct (some (normalizedProductName (some name))) = false →
      isArrExcludedProduct (some name) = false →
      normalizedProductName (some name) ≠ "" →
      (getArrByAccountProductData []
        [⟨"O1", some "Proposal", some "Renewal", some "A1", some "Acme", none⟩]
        [⟨"O1", some name, some price⟩]).rows ≠ []) := by
  constructor
  · intro A O L li h
    exact getArr_append_skipped A O L li (Or.inl h)
  · intro name price h1 h2 h3
    have hdict : dictGet (oppToAccount (liveRenewalOpps
        [⟨"O1", some "Proposal", some "Renewal", some "A1", some "Acme", none⟩]))
        "O1" = some (some "A1", some "Acme") := by decide
    have hfilter : ∀ (li : LineItem), li.opportunity_sf_id = "O1" →
        (((liveRenewalOpps
          [⟨"O1", some "Proposal", some "Renewal", some "A1", some "Acme", none⟩]).map
            (·.sf_id)).contains li.opportunity_sf_id) = true := by
      intro li hid
      rw [hid]
      decide
    unfold getArrByAccountProductData
    rw [if_neg (by decide)]
    simp only [List.filter_cons, List.filter_nil,
      hfilter ⟨"O1", some name, some price⟩ rfl, if_true,
      List.foldl_cons, List.foldl_nil]
    intro hrows
    have hbap : bapStep (oppToAccount (liveRenewalOpps
        [⟨"O1", some "Proposal", some "Renewal", some "A1", some "Acme", none⟩]))
        [] ⟨"O1", some name, some price⟩ ≠ [] := by
      unfold bapStep
      rw [hdict]
      simp only [h1, h2, Bool.or_self, Bool.false_eq_true, if_false, h3]
      simp [updateAt, dictGet]
    rw [sortRowsDesc_eq_nil] at hrows
    exact hbap (List.map_eq_nil_iff.mp hrows)

/-- C3 witness: an instance of each half — a line whose raw (but not
normalized) name matches is skipped; a clean name is counted. -/
theorem arr_exclusion_uses_normalized_and_raw_name_witness :
    ((isArrExcludedProduct (some (normalizedProductName (some "Monthly Kipu API Fee"))) ||
        isArrExcludedProduct (some "Monthly Kipu API Fee")) = true ∧
      getArrByAccountProductData []
        [⟨"O1", some "Proposal", some "Renewal", some "A1", some "Acme", none⟩]
        ([] ++ [⟨"O1", some "Monthly Kipu API Fee", some 50⟩]) =
      getArrByAccountProductData []
        [⟨"O1", some "Proposal", some "Renewal", some "A1", some "Acme", none⟩] []) ∧
    (isArrExcludedProduct (some (normalizedProductName (some "Premium Support"))) = false ∧
      isArrExcludedProduct (some "Premium Support") = false ∧
      normalizedProductName (some "Premium Support") ≠ "" ∧
      (getArrByAccountProductData []
        [⟨"O1", some "Proposal", some "Renewal", some "A1", some "Acme", none⟩]
        [⟨"O1", some "Premium Support", some 7⟩]).rows ≠ []) :=
  ⟨⟨by decide,
    arr_exclusion_uses_normalized_and_raw_name.1 _ _ _ _ (by decide)⟩,
   by decide, by decide, by decide,
    arr_exclusion_uses_normalized_and_raw_name.2 "Premium Support" 7
      (by decide) (by decide) (by decide)⟩

/-- C3 counterexample: `"Kipu API - Premium Support"` normalizes to
`"Premium Support"`, which the exclusion set does not match, yet the line
is skipped (no row is produced) because the raw name contains "kipu api" —
refuting "the un-normalized raw name plays no role". -/
theorem arr_exclusion_raw_name_counterexample :
    normalizedProductName (some "Kipu API - Premium Support") = "Premium Support" ∧
    isArrExcludedProduct (some "Premium Support") = false ∧
    (getArrByAccountProductData []
      [⟨"O1", some "Proposal", some "Renewal", some "A1", some "Acme", none⟩]
      [⟨"O1", some "Kipu API - Premium Support", some 100⟩]).rows = [] := by
  refine ⟨by decide, by decide, by with_unfolding_all decide⟩

/-! ## C4: empty product names -/

/-- C4 (amended): a line item whose product name is empty or
whitespace-only (normalized name empty) is **skipped entirely** — it
contributes nothing to "Other", to the row total or to the grand total
(the claim said it is still counted). -/
theorem arr_empty_name_line_skipped (A : List Account) (O : List Opp)
    (L : List LineItem) (li : LineItem)
    (h : normalizedProductName li.product_name = "") :
    getArrByAccountProductData A O (L ++ [li]) = getArrByAccountProductData A O L :=
  getArr_append_skipped A O L li (Or.inr h)

/-- C4 witness: appending a whitespace-named line item changes nothing. -/
theorem arr_empty_name_line_skipped_witness :
    normalizedProductName (some "   ") = "" ∧
    getArrByAccountProductData []
      [⟨"O1", some "Proposal", some "Renewal", some "A1", some "Acme", none⟩]
      ([⟨"O1", some "Premium Support", some 100⟩] ++ [⟨"O1", some "   ", some 55⟩]) =
    getArrByAccountProductData []
      [⟨"O1", some "Proposal", some "Renewal", some "A1", some "Acme", none⟩]
      [⟨"O1", some "Premium Support", some 100⟩] :=
  ⟨by decide, arr_empty_name_line_skipped _ _ _ _ (by decide)⟩

/-- C4 counterexample: a 100-per-month line item with a `None` product
name on an open renewal opportunity yields **no** row and a zero grand
total, not an "Other" contribution of `round(100*12, 2) = 1200`. -/
theorem arr_empty_name_counterexample :
    (getArrByAccountProductData []
      [⟨"O1", some "Proposal", some "Renewal", some "A1", some "Acme", none⟩]
      [⟨"O1", none, some 100⟩]).rows = [] ∧
    (getArrByAccountProductData []
      [⟨"O1", some "Proposal", some "Renewal", some "A1", some "Acme", none⟩]
      [⟨"O1", none, some 100⟩]).grand_total = 0 ∧
    (0 : ℚ) ≠ 1200 := by
  refine ⟨by with_unfolding_all decide, by with_unfolding_all decide,
    by with_unfolding_all decide⟩

/-! ## C6: direction of the exclusion containment -/

/-- C6 (amended): the exclusion check is containment in **one** direction
only — a name is excluded exactly when some exclusion phrase occurs inside
the collapsed, case-folded name (exact equality being the degenerate case);
a name properly contained in an exclusion phrase is **not** excluded. -/
theorem arr_exclusion_one_directional (pn : Option String) :
    isArrExcludedProduct pn = true ↔
      ∃ e ∈ ARR_PRODUCT_EXCLUDE,
        pyIn e (lowerStr (stripStr (collapseWs (pn.getD "")))) = true := by
  have hmem : ∀ e : String, e ∈ ARR_PRODUCT_EXCLUDE →
      (e = "iverify monthly credits" ∨ e = "verify monthly credits" ∨ e = "kipu api") := by
    intro e he
    simpa [ARR_PRODUCT_EXCLUDE] using he
  cases pn with
  | none =>
    simp only [Option.getD_none]
    constructor
    · intro h; cases h
    · rintro ⟨e, he, hin⟩
      rcases hmem e he with rfl | rfl | rfl <;> exact absurd hin (by decide)
  | some p =>
    simp only [Option.getD_some]
    have hdef : isArrExcludedProduct (some p) =
        (if stripStr p = "" then false
         else
           if lowerStr (stripStr (collapseWs p)) = "" then false
           else if ARR_PRODUCT_EXCLUDE.contains (lowerStr (stripStr (collapseWs p))) = true
             then true
           else ARR_PRODUCT_EXCLUDE.any
             (fun exc => pyIn exc (lowerStr (stripStr (collapseWs p))))) := rfl
    rw [hdef]
    by_cases hstrip : stripStr p = ""
    · rw [if_pos hstrip]
      have hkey : lowerStr (stripStr (collapseWs p)) = "" := by
        rw [collapseWs_of_strip_empty hstrip]
        rfl
      rw [hkey]
      constructor
      · intro h; cases h
      · rintro ⟨e, he, hin⟩
        rcases hmem e he with rfl | rfl | rfl <;> exact absurd hin (by decide)
    · rw [if_neg hstrip]
      by_cases hkey : lowerStr (stripStr (collapseWs p)) = ""
      · rw [if_pos hkey, hkey]
        constructor
        · intro h; cases h
        · rintro ⟨e, he, hin⟩
          rcases hmem e he with rfl | rfl | rfl <;> exact absurd hin (by decide)
      · rw [if_neg hkey]
        by_cases hc : ARR_PRODUCT_EXCLUDE.contains (lowerStr (stripStr (collapseWs p))) = true
        · rw [if_pos hc]
          have hcm : lowerStr (stripStr (collapseWs p)) ∈ ARR_PRODUCT_EXCLUDE := by
            simpa using hc
          constructor
          · intro _
            exact ⟨_, hcm, pyIn_refl _⟩
          · intro _; rfl
        · rw [if_neg hc]
          constructor
          · intro h
            exact List.any_eq_true.mp h
          · intro h
            exact List.any_eq_true.mpr h

/-- C6 counterexample: `"Kipu"` (collapsed-folded `"kipu"`) is a proper
substring of the exclusion entry `"kipu api"`, yet `_is_arr_excluded_product`
returns `False` — the "either direction" half of the claim fails. -/
theorem arr_exclusion_direction_counterexample :
    pyIn "kipu" "kipu api" = true ∧
    lowerStr (stripStr (collapseWs "Kipu")) = "kipu" ∧
    "kipu api" ∈ ARR_PRODUCT_EXCLUDE ∧
    isArrExcludedProduct (some "Kipu") = false := by
  refine ⟨by decide, by decide, by decide, by decide⟩

/-! ## C7: reference-date precedence -/

/-- C7 (amended): "last month" takes precedence over a literal ISO date —
for every question containing the phrase "last month" (any case), the
resolver returns the last day of the month before `today`, even when the
text also contains a literal `YYYY-MM-DD` date (the claim's precedence is
reversed in the code). -/
theorem last_month_overrides_iso_date (q : String) (today : Date3)
    (h : pyIn "last month" (lowerStr q) = true) :
    parseDateFromQuestion q today = some (lastDayOfPrevMonth today) := by
  unfold parseDateFromQuestion
  simp [h]

/-- C7 witness: a question with both an ISO date and "last month". -/
theorem last_month_overrides_iso_date_witness :
    pyIn "last month" (lowerStr "arr on 2025-03-15 vs last month") = true ∧
    parseDateFromQuestion "arr on 2025-03-15 vs last month" ⟨2025, 6, 10⟩ =
      some (lastDayOfPrevMonth ⟨2025, 6, 10⟩) :=
  ⟨by decide, last_month_overrides_iso_date _ _ (by decide)⟩

/-- C7 counterexample: the text contains the literal ISO date 2025-03-15
(the ISO scanner finds it), but the resolver returns 2025-05-31 (last day
of the month before `today` = 2025-06-10), not the literal date — refuting
the claimed rule-1-over-rule-2 precedence. -/
theorem iso_date_precedence_counterexample :
    isoSearch false ("arr on 2025-03-15 vs last month").data = some (2025, 3, 15) ∧
    parseDateFromQuestion "arr on 2025-03-15 vs last month" ⟨2025, 6, 10⟩ =
      some ⟨2025, 5, 31⟩ ∧
    (⟨2025, 5, 31⟩ : Date3) ≠ ⟨2025, 3, 15⟩ := by
  refine ⟨by decide, by decide, by decide⟩

/-! ## C8: month/year extraction order -/

theorem findSome?_of_prefix_none {α β : Type} (f : α → Option β)
    (pre post : List α) (x : α) (r : β)
    (hpre : ∀ a ∈ pre, f a = none) (hx : f x = some r) :
    (pre ++ x :: post).findSome? f = some r := by
  induction pre with
  | nil =>
    rw [List.nil_append, List.findSome?_cons_of_isSome _ (by simp [hx])]
    exact hx
  | cons a t ih =>
    rw [List.cons_append, List.findSome?_cons_of_isNone _
      (by simp [hpre a (List.mem_cons_self a t)])]
    exact ih (fun b hb => hpre b (List.mem_cons_of_mem a hb))

/-- C8 (amended): the winning month name is the first one in the fixed
table's **insertion order** (january, jan, february, …) that has an
occurrence followed by an acceptable year — not the name occurring
earliest in the question text.  Per occurrence the 4-digit year form is
tried before the 2-digit form. -/
theorem month_table_order_wins (q : String) (pre post : List (String × Nat))
    (nm : String × Nat) (r : Nat × Nat)
    (htable : MONTH_NAMES = pre ++ nm :: post)
    (hpre : ∀ x ∈ pre, tryOccurrences x.1.data x.2 (lowerStr q).data = none)
    (hx : tryOccurrences nm.1.data nm.2 (lowerStr q).data = some r) :
    parseRenewalMonthFromQuestion q = some r := by
  unfold parseRenewalMonthFromQuestion
  rw [htable]
  exact findSome?_of_prefix_none _ pre post nm r hpre hx

/-- C8 witness: in "December 2025 or March 2026", the table entries before
("march", 3) find nothing, "march" finds (2026, 3), so the parser returns
(2026, 3). -/
theorem month_table_order_wins_witness :
    (∀ x ∈ ([("january", 1), ("jan", 1), ("february", 2), ("feb", 2)] : List (String × Nat)),
      tryOccurrences x.1.data x.2 (lowerStr "December 2025 or March 2026").data = none) ∧
    tryOccurrences "march".data 3 (lowerStr "December 2025 or March 2026").data =
      some (2026, 3) ∧
    parseRenewalMonthFromQuestion "December 2025 or March 2026" = some (2026, 3) :=
  ⟨by decide, by decide,
    month_table_order_wins "December 2025 or March 2026"
      [("january", 1), ("jan", 1), ("february", 2), ("feb", 2)]
      [("mar", 3), ("april", 4), ("apr", 4), ("may", 5), ("june", 6), ("jun", 6),
       ("july", 7), ("jul", 7), ("august", 8), ("aug", 8), ("september", 9),
       ("sep", 9), ("sept", 9), ("october", 10), ("oct", 10), ("november", 11),
       ("nov", 11), ("december", 12), ("dec", 12)]
      ("march", 3) (2026, 3) (by decide) (by decide) (by decide)⟩

/-- C8 counterexample: in "December 2025 or March 2026" the month name
occurring earliest in the text is December (with year 2025), but the
parser returns (2026, 3) because "march" precedes "december" in the
table's insertion order. -/
theorem month_text_order_counterexample :
    parseRenewalMonthFromQuestion "December 2025 or March 2026" = some (2026, 3) ∧
    parseRenewalMonthFromQuestion "December 2025 or March 2026" ≠ some (2025, 12) := by
  refine ⟨by decide, by decide⟩

/-! ## C9: sync-cycle rollback on upstream failure -/

/-- C9: if the opportunities fetch or the line-items fetch fails during a
configured sync cycle, the sync returns `{ok: False, error: message}`
without raising, and the committed store is unchanged — in particular the
accounts deleted earlier in the cycle are restored by the rollback, so no
entity type is partially replaced. -/
theorem sync_upstream_failure_rolls_back (st : SfStore) (accs : List Account)
    (opps : List Opp) (e : String) (fl : Except String (List LineItem)) :
    runSalesforceSync st true (.ok accs) (.error e) fl =
      (st, syncFailure ("Opportunities sync failed: " ++ e)) ∧
    runSalesforceSync st true (.ok accs) (.ok opps) (.error e) =
      (st, syncFailure ("OpportunityLineItem sync failed: " ++ e)) := by
  constructor <;> rfl

/-! ## Accumulation invariants of the line-item fold -/

theorem find?_key_of_mem_nodup {α β : Type} [BEq α] [LawfulBEq α]
    {l : List (α × β)} (hnd : (l.map Prod.fst).Nodup) {k : α} {v : β}
    (hm : (k, v) ∈ l) : l.find? (fun p => p.1 == k) = some (k, v) := by
  induction l with
  | nil => cases hm
  | cons x t ih =>
    rw [List.map_cons, List.nodup_cons] at hnd
    rcases List.mem_cons.mp hm with rfl | hmt
    · exact List.find?_cons_of_pos _ (by simp)
    · have hxk : x.1 ≠ k := fun hk => hnd.1 (hk ▸ List.mem_map.mpr ⟨(k, v), hmt, rfl⟩)
      rw [List.find?_cons_of_neg _ (by simp [hxk])]
      exact ih hnd.2 hmt

theorem dictGet_isSome_iff_mem {α β : Type} [BEq α] [LawfulBEq α]
    {l : List (α × β)} {k : α} :
    (dictGet l k).isSome = true ↔ ∃ v, (k, v) ∈ l := by
  unfold dictGet
  cases hf : l.reverse.find? (fun p => p.1 == k) with
  | none =>
    constructor
    · intro h; cases h
    · rintro ⟨v, hv⟩
      have hex : ∃ x, x ∈ l.reverse ∧ ((fun p : α × β => p.1 == k) x) = true :=
        ⟨(k, v), List.mem_reverse.mpr hv, by simp⟩
      rw [← List.find?_isSome, hf] at hex
      cases hex
  | some a =>
    have hk : a.1 = k := by simpa using List.find?_some hf
    refine ⟨fun _ => ⟨a.2, ?_⟩, fun _ => rfl⟩
    rw [← hk]
    exact List.mem_reverse.mp (List.mem_of_find?_eq_some hf)

theorem dictGet_eq_of_mem_nodup {α β : Type} [BEq α] [LawfulBEq α]
    {l : List (α × β)} (hnd : (l.map Prod.fst).Nodup) {k : α} {v : β}
    (hm : (k, v) ∈ l) : dictGet l k = some v := by
  have hnd' : (l.reverse.map Prod.fst).Nodup := by
    rw [List.map_reverse]
    exact List.nodup_reverse.mpr hnd
  unfold dictGet
  rw [find?_key_of_mem_nodup hnd' (List.mem_reverse.mpr hm)]
  rfl

/-- The value of `lineQualifies` under each shape of the line's lookup and
name checks (used to drive the step lemmas). -/
theorem lineQualifies_eq (ota : List (String × AccKey)) (k : AccKey) (c : String)
    (li : LineItem) :
    lineQualifies ota k c li =
      ((dictGet ota li.opportunity_sf_id == some k) && lineCounted li &&
        (lineBucket li == c)) := rfl

/-- One `bapStep` changes cell `(k, c)` exactly by the line's MRR when the
line qualifies for that cell, and not at all otherwise. -/
theorem cellVal_bapStep (ota : List (String × AccKey))
    (m : List (AccKey × (String → ℚ))) (li : LineItem) (k : AccKey) (c : String) :
    cellVal (bapStep ota m li) k c =
      if lineQualifies ota k c li then cellVal m k c + li.total_price.getD 0
      else cellVal m k c := by
  unfold bapStep
  cases hd : dictGet ota li.opportunity_sf_id with
  | none =>
    have hq : lineQualifies ota k c li = false := by
      rw [lineQualifies_eq, hd]
      rfl
    simp [hq]
  | some acc =>
    dsimp only
    by_cases hexcl : (isArrExcludedProduct (some (normalizedProductName li.product_name)) ||
        isArrExcludedProduct li.product_name) = true
    · have hq : lineQualifies ota k c li = false := by
        rw [lineQualifies_eq, hd]
        unfold lineCounted
        rw [hexcl]
        simp
      rw [if_pos hexcl]
      simp [hq]
    · have hexcl' : (isArrExcludedProduct (some (normalizedProductName li.product_name)) ||
          isArrExcludedProduct li.product_name) = false := by
        revert hexcl
        cases isArrExcludedProduct (some (normalizedProductName li.product_name)) ||
          isArrExcludedProduct li.product_name <;> simp
      rw [if_neg hexcl]
      by_cases hraw : normalizedProductName li.product_name = ""
      · have hq : lineQualifies ota k c li = false := by
          rw [lineQualifies_eq, hd]
          unfold lineCounted
          rw [hraw]
          simp
        rw [if_pos hraw]
        simp [hq]
      · have hcnt : lineCounted li = true := by
          unfold lineCounted
          rw [hexcl']
          simp [hraw]
        rw [if_neg hraw]
        have hcanon : lineBucket li =
            (matchArrProduct (some (normalizedProductName li.product_name))).getD "Other" := rfl
        by_cases hk : acc = k
        · subst hk
          by_cases hc : lineBucket li = c
          · have hq : lineQualifies ota acc c li = true := by
              rw [lineQualifies_eq, hd, hcnt, hc]
              simp
            rw [if_pos hq]
            have hcond : c = (matchArrProduct
                (some (normalizedProductName li.product_name))).getD "Other" := by
              rw [← hc]
              exact hcanon
            unfold cellVal
            rw [dictGet_updateAt, if_pos rfl]
            cases hgd : dictGet m acc with
            | none => simp [hgd, dictGet_append_single, ← hcond]
            | some b => simp [hgd, ← hcond]
          · have hq : lineQualifies ota acc c li = false := by
              rw [lineQualifies_eq, hd, hcnt]
              simp [hc]
            simp only [hq, Bool.false_eq_true, if_false]
            have hcond : ¬(c = (matchArrProduct
                (some (normalizedProductName li.product_name))).getD "Other") := by
              rw [← hcanon]
              exact fun h => hc h.symm
            unfold cellVal
            rw [dictGet_updateAt, if_pos rfl]
            cases hgd : dictGet m acc with
            | none => simp [hgd, dictGet_append_single, hcond]
            | some b => simp [hgd, hcond]
        · have hq : lineQualifies ota k c li = false := by
            rw [lineQualifies_eq, hd]
            have : (some acc == some k) = false := by simp [hk]
            rw [this]
            simp
          simp only [hq, Bool.false_eq_true, if_false]
          unfold cellVal
          rw [dictGet_updateAt, if_neg hk]
          by_cases hnone : (dictGet m acc).isNone = true
          · rw [if_pos hnone, dictGet_append_single,
              if_neg (by simp; exact fun h => hk h)]
          · rw [if_neg hnone]

/-- Folding the line loop accumulates, cell by cell, exactly the MRR of
the qualifying lines, in list order. -/
theorem cellVal_foldl (ota : List (String × AccKey)) (l : List LineItem)
    (m : List (AccKey × (String → ℚ))) (k : AccKey) (c : String) :
    cellVal (l.foldl (bapStep ota) m) k c =
      ((l.filter (lineQualifies ota k c)).map
        (fun li => li.total_price.getD 0)).foldl (· + ·) (cellVal m k c) := by
  induction l generalizing m with
  | nil => rfl
  | cons li t ih =>
    rw [List.foldl_cons, ih, List.filter_cons]
    by_cases hq : lineQualifies ota k c li = true
    · rw [if_pos hq, List.map_cons, List.foldl_cons, cellVal_bapStep, if_pos hq]
    · rw [if_neg hq, cellVal_bapStep, if_neg hq]

/-- One `bapStep` adds key `k` exactly when the line contributes to `k`. -/
theorem bapStep_hasKey (ota : List (String × AccKey))
    (m : List (AccKey × (String → ℚ))) (li : LineItem) (k : AccKey) :
    (dictGet (bapStep ota m li) k).isSome =
      ((dictGet m k).isSome || lineContributes ota k li) := by
  unfold bapStep
  cases hd : dictGet ota li.opportunity_sf_id with
  | none =>
    have hc : lineContributes ota k li = false := by
      unfold lineContributes
      rw [hd]
      rfl
    simp [hc]
  | some acc =>
    dsimp only
    by_cases hexcl : (isArrExcludedProduct (some (normalizedProductName li.product_name)) ||
        isArrExcludedProduct li.product_name) = true
    · have hc : lineContributes ota k li = false := by
        unfold lineContributes lineCounted
        rw [hd, hexcl]
        simp
      rw [if_pos hexcl, hc]
      simp
    · have hexcl' : (isArrExcludedProduct (some (normalizedProductName li.product_name)) ||
          isArrExcludedProduct li.product_name) = false := by
        revert hexcl
        cases isArrExcludedProduct (some (normalizedProductName li.product_name)) ||
          isArrExcludedProduct li.product_name <;> simp
      rw [if_neg hexcl]
      by_cases hraw : normalizedProductName li.product_name = ""
      · have hc : lineContributes ota k li = false := by
          unfold lineContributes lineCounted
          rw [hd, hraw]
          simp
        rw [if_pos hraw, hc]
        simp
      · have hcnt : lineCounted li = true := by
          unfold lineCounted
          rw [hexcl']
          simp [hraw]
        rw [if_neg hraw]
        by_cases hk : acc = k
        · subst hk
          have hc : lineContributes ota acc li = true := by
            unfold lineContributes
            rw [hd, hcnt]
            simp
          rw [hc, Bool.or_true]
          rw [dictGet_updateAt, if_pos rfl]
          by_cases hnone : (dictGet m acc).isNone = true
          · rw [if_pos hnone, dictGet_append_single]
            simp
          · rw [if_neg hnone]
            cases hgd : dictGet m acc with
            | none => rw [hgd] at hnone; exact absurd rfl hnone
            | some b => simp
        · have hc : lineContributes ota k li = false := by
            unfold lineContributes
            rw [hd]
            have : (some acc == some k) = false := by simp [hk]
            rw [this]
            rfl
          rw [hc, Bool.or_false]
          rw [dictGet_updateAt, if_neg hk]
          by_cases hnone : (dictGet m acc).isNone = true
          · rw [if_pos hnone, dictGet_append_single,
              if_neg (by simp; exact fun h => hk h)]
          · rw [if_neg hnone]

/-- Key presence after folding the whole line list. -/
theorem foldl_hasKey (ota : List (String × AccKey)) (l : List LineItem)
    (m : List (AccKey × (String → ℚ))) (k : AccKey) :
    (dictGet (l.foldl (bapStep ota) m) k).isSome =
      ((dictGet m k).isSome || l.any (lineContributes ota k)) := by
  induction l generalizing m with
  | nil => simp
  | cons li t ih =>
    rw [List.foldl_cons, ih, bapStep_hasKey, List.any_cons]
    cases (dictGet m k).isSome <;> cases lineContributes ota k li <;> simp

/-! ## Sorting and key lemmas -/

theorem insertRowDesc_perm (r : ArrRow) (l : List ArrRow) :
    (insertRowDesc r l).Perm (r :: l) := by
  induction l with
  | nil => exact List.Perm.refl _
  | cons x xs ih =>
    unfold insertRowDesc
    by_cases h : x.total_arr ≤ r.total_arr
    · rw [if_pos h]
    · rw [if_neg h]
      exact (ih.cons x).trans (List.Perm.swap r x xs)

theorem sortRowsDesc_perm (l : List ArrRow) : (sortRowsDesc l).Perm l := by
  induction l with
  | nil => exact List.Perm.refl _
  | cons r rs ih => exact (insertRowDesc_perm r (sortRowsDesc rs)).trans (ih.cons r)

theorem mem_sortRowsDesc {r : ArrRow} {l : List ArrRow} :
    r ∈ sortRowsDesc l ↔ r ∈ l :=
  (sortRowsDesc_perm l).mem_iff

theorem not_mem_keys_of_dictGet_isNone {α β : Type} [BEq α] [LawfulBEq α]
    {m : List (α × β)} {k : α} (h : (dictGet m k).isNone = true) :
    k ∉ m.map Prod.fst := by
  intro hk
  obtain ⟨p, hp, hfst⟩ := List.mem_map.mp hk
  have hmem : (k, p.2) ∈ m := by
    rw [← hfst]
    exact Prod.mk.eta ▸ hp
  have hs := dictGet_isSome_iff_mem.mpr ⟨p.2, hmem⟩
  cases hd : dictGet m k with
  | none => rw [hd] at hs; cases hs
  | some v => rw [hd] at h; cases h

theorem bapStep_keys_nodup (ota : List (String × AccKey))
    (m : List (AccKey × (String → ℚ))) (li : LineItem)
    (h : (m.map Prod.fst).Nodup) : ((bapStep ota m li).map Prod.fst).Nodup := by
  unfold bapStep
  cases hd : dictGet ota li.opportunity_sf_id with
  | none => exact h
  | some acc =>
    dsimp only
    by_cases hexcl : (isArrExcludedProduct (some (normalizedProductName li.product_name)) ||
        isArrExcludedProduct li.product_name) = true
    · rw [if_pos hexcl]; exact h
    · rw [if_neg hexcl]
      by_cases hraw : normalizedProductName li.product_name = ""
      · rw [if_pos hraw]; exact h
      · rw [if_neg hraw]
        rw [updateAt_map_fst]
        by_cases hnone : (dictGet m acc).isNone = true
        · rw [if_pos hnone, List.map_append, List.nodup_append]
          refine ⟨h, by simp, ?_⟩
          intro x hx hx'
          simp at hx'
          subst hx'
          exact not_mem_keys_of_dictGet_isNone hnone hx
        · rw [if_neg hnone]; exact h

theorem foldl_bapStep_keys_nodup (ota : List (String × AccKey))
    (l : List LineItem) (m : List (AccKey × (String → ℚ)))
    (h : (m.map Prod.fst).Nodup) :
    ((l.foldl (bapStep ota) m).map Prod.fst).Nodup := by
  induction l generalizing m with
  | nil => exact h
  | cons li t ih => exact ih _ (bapStep_keys_nodup ota m li h)

theorem filter_filter_of_imp {α : Type} (p q : α → Bool) (l : List α)
    (h : ∀ x, q x = true → p x = true) :
    (l.filter p).filter q = l.filter q := by
  induction l with
  | nil => rfl
  | cons x t ih =>
    rw [List.filter_cons]
    by_cases hp : p x = true
    · rw [if_pos hp, List.filter_cons, List.filter_cons, ih]
    · have hq : q x = false := by
        cases hqx : q x
        · rfl
        · exact absurd (h x hqx) hp
      rw [if_neg hp, List.filter_cons, hq, ih]
      simp

theorem lookup_map_self (f : String → ℚ) :
    ∀ {ps : List String}, ps.Nodup → ∀ {c : String}, c ∈ ps →
      (ps.map (fun p => (p, f p))).lookup c = some (f c) := by
  intro ps
  induction ps with
  | nil => intro _ c hc; cases hc
  | cons p t ih =>
    intro hnd c hc
    rw [List.map_cons]
    by_cases hcp : c = p
    · subst hcp
      simp [List.lookup]
    · have hct : c ∈ t := by
        rcases List.mem_cons.mp hc with rfl | hct
        · exact absurd rfl hcp
        · exact hct
      have : (c == p) = false := by simp [hcp]
      simp only [List.lookup, this]
      exact ih (List.nodup_cons.mp hnd).2 hct

theorem arrProducts_nodup : arrProducts.Nodup := by decide

/-- A qualifying line's parent id is one of the renewal opportunity ids. -/
theorem lineQualifies_imp_contains (R : List Opp) (k : AccKey) (c : String)
    (li : LineItem) (h : lineQualifies (oppToAccount R) k c li = true) :
    ((R.map (·.sf_id)).contains li.opportunity_sf_id) = true := by
  rw [lineQualifies_eq] at h
  rw [Bool.and_eq_true, Bool.and_eq_true] at h
  have hbeq := h.1.1
  have hdg : dictGet (oppToAccount R) li.opportunity_sf_id = some k := by
    cases hdg : dictGet (oppToAccount R) li.opportunity_sf_id with
    | none => rw [hdg] at hbeq; cases hbeq
    | some v =>
      rw [hdg] at hbeq
      have : v = k := by simpa using hbeq
      rw [this]
  have hmem := mem_of_dictGet_some hdg
  unfold oppToAccount at hmem
  obtain ⟨o, hoR, heq⟩ := List.mem_map.mp hmem
  have hid : o.sf_id = li.opportunity_sf_id := congrArg Prod.fst heq
  exact List.elem_iff.mpr (List.mem_map.mpr ⟨o, hoR, hid⟩)

/-! ## C5: the annualization invariant -/

/-- C5: every row's `by_product[c]` is exactly
`round(qualifying-MRR * 12, 2)` — the ×12 multiplier and the rounding are
applied once, at output time, to the accumulated monthly sum. -/
theorem arr_annualization_invariant (A : List Account) (O : List Opp)
    (L : List LineItem) (r : ArrRow)
    (hr : r ∈ (getArrByAccountProductData A O L).rows) :
    ∃ k : AccKey, r.account_id = k.1 ∧ r.account_name = displayName k.2 ∧
      ∀ c ∈ arrProducts,
        r.by_product.lookup c =
          some (round2 (arrQualifyingMrr O L k c * ARR_MULTIPLIER)) := by
  unfold getArrByAccountProductData at hr
  by_cases hre : (((liveRenewalOpps O).map (·.sf_id)).isEmpty) = true
  · rw [if_pos hre] at hr
    simp at hr
  · rw [if_neg hre] at hr
    dsimp only at hr
    rw [mem_sortRowsDesc] at hr
    obtain ⟨⟨k, b⟩, hkv, hrow⟩ := List.mem_map.mp hr
    refine ⟨k, ?_, ?_, ?_⟩
    · rw [← hrow]; rfl
    · rw [← hrow]; rfl
    · intro c hc
      have hby : r.by_product =
          arrProducts.map (fun p => (p, round2 (b p * ARR_MULTIPLIER))) := by
        rw [← hrow]; rfl
      rw [hby, lookup_map_self _ arrProducts_nodup hc]
      have hnd := foldl_bapStep_keys_nodup (oppToAccount (liveRenewalOpps O))
        (L.filter (fun li =>
          ((liveRenewalOpps O).map (·.sf_id)).contains li.opportunity_sf_id))
        [] (by simp)
      have hdg : dictGet (List.foldl (bapStep (oppToAccount (liveRenewalOpps O))) []
          (L.filter (fun li =>
            ((liveRenewalOpps O).map (·.sf_id)).contains li.opportunity_sf_id))) k =
          some b := dictGet_eq_of_mem_nodup hnd hkv
      have hcell : b c = arrQualifyingMrr O L k c := by
        have h1 : cellVal (List.foldl (bapStep (oppToAccount (liveRenewalOpps O))) []
            (L.filter (fun li =>
              ((liveRenewalOpps O).map (·.sf_id)).contains li.opportunity_sf_id))) k c =
            b c := by
          unfold cellVal
          rw [hdg]
        rw [← h1, cellVal_foldl]
        unfold arrQualifyingMrr sumQ cellVal
        rw [dictGet_nil,
          filter_filter_of_imp _ _ L
            (fun li => lineQualifies_imp_contains (liveRenewalOpps O) k c li)]
      rw [hcell]

/-- C5 witness: a concrete two-line store — the Premium Support column is
`round(100*12, 2)` and Other is `round(50*12, 2)` on the produced row. -/
theorem arr_annualization_invariant_witness :
    (⟨some "A1", "Acme", some "Enterprise", some ⟨2026, 5, 1⟩,
      [("CRM Platform", 0), ("CRM Billing Platform", 0), ("Add. CRM Seats", 0),
       ("MR Platform", 0), ("IQ Platform", 0), ("Add. MR/ IQ Locations", 0),
       ("iCampaign Platform", 0), ("Premium Support", 1200), ("Other", 600)],
      1800⟩ : ArrRow) ∈
      (getArrByAccountProductData [⟨"A1", some " Enterprise "⟩]
        [⟨"O1", some "Proposal", some "Renewal", some "A1", some "Acme", some ⟨2026, 5, 1⟩⟩]
        [⟨"O1", some "Premium Support", some 100⟩,
         ⟨"O1", some "Unknown Thing", some 50⟩]).rows ∧
    ∃ k : AccKey,
      (⟨some "A1", "Acme", some "Enterprise", some ⟨2026, 5, 1⟩,
        [("CRM Platform", 0), ("CRM Billing Platform", 0), ("Add. CRM Seats", 0),
         ("MR Platform", 0), ("IQ Platform", 0), ("Add. MR/ IQ Locations", 0),
         ("iCampaign Platform", 0), ("Premium Support", 1200), ("Other", 600)],
        1800⟩ : ArrRow).account_id = k.1 ∧
      (⟨some "A1", "Acme", some "Enterprise", some ⟨2026, 5, 1⟩,
        [("CRM Platform", 0), ("CRM Billing Platform", 0), ("Add. CRM Seats", 0),
         ("MR Platform", 0), ("IQ Platform", 0), ("Add. MR/ IQ Locations", 0),
         ("iCampaign Platform", 0), ("Premium Support", 1200), ("Other", 600)],
        1800⟩ : ArrRow).account_name = displayName k.2 ∧
      ∀ c ∈ arrProducts,
        (⟨some "A1", "Acme", some "Enterprise", some ⟨2026, 5, 1⟩,
          [("CRM Platform", 0), ("CRM Billing Platform", 0), ("Add. CRM Seats", 0),
           ("MR Platform", 0), ("IQ Platform", 0), ("Add. MR/ IQ Locations", 0),
           ("iCampaign Platform", 0), ("Premium Support", 1200), ("Other", 600)],
          1800⟩ : ArrRow).by_product.lookup c =
          some (round2 (arrQualifyingMrr
            [⟨"O1", some "Proposal", some "Renewal", some "A1", some "Acme", some ⟨2026, 5, 1⟩⟩]
            [⟨"O1", some "Premium Support", some 100⟩,
             ⟨"O1", some "Unknown Thing", some 50⟩] k c * ARR_MULTIPLIER)) :=
  ⟨by with_unfolding_all decide,
   arr_annualization_invariant [⟨"A1", some " Enterprise "⟩] _ _ _
     (by with_unfolding_all decide)⟩

/-! ## C2: which accounts get rows -/

theorem eq_some_of_beq {α : Type} [BEq α] [LawfulBEq α] {x : Option α} {k : α}
    (h : (x == some k) = true) : x = some k := by
  cases x with
  | none => simp at h
  | some v =>
    have : v = k := by simpa using h
    rw [this]

theorem mem_liveRenewalOpps {O : List Opp} {o : Opp} :
    o ∈ liveRenewalOpps O ↔ o ∈ O ∧ isOpenRenewal o = true := by
  unfold liveRenewalOpps liveOpenOpps isOpenRenewal
  rw [List.mem_filter, List.mem_filter]
  constructor
  · rintro ⟨⟨hO, hopen⟩, hren⟩
    exact ⟨hO, by rw [hopen, hren]; rfl⟩
  · rintro ⟨hO, hb⟩
    rw [Bool.and_eq_true] at hb
    exact ⟨⟨hO, hb.1⟩, hb.2⟩

/-- C2 (amended): the rows are exactly the accounts that own an open
renewal opportunity **with at least one counted line item** (non-excluded
names, nonempty normalized name).  An open renewal opportunity with no
counted line item produces no row. -/
theorem arr_rows_iff_counted_line (A : List Account) (O : List Opp)
    (L : List LineItem) (aid : Option String)
    (hnd : (O.map (·.sf_id)).Nodup) :
    (∃ r ∈ (getArrByAccountProductData A O L).rows, r.account_id = aid) ↔
      ∃ o ∈ O, isOpenRenewal o = true ∧ o.account_id = aid ∧
        ∃ li ∈ L, li.opportunity_sf_id = o.sf_id ∧ lineCounted li = true := by
  unfold getArrByAccountProductData
  by_cases hre : (((liveRenewalOpps O).map (·.sf_id)).isEmpty) = true
  · rw [if_pos hre]
    constructor
    · rintro ⟨r, hr, _⟩
      simp at hr
    · rintro ⟨o, hoO, hor, _⟩
      have hoR : o ∈ liveRenewalOpps O := mem_liveRenewalOpps.mpr ⟨hoO, hor⟩
      rw [List.isEmpty_iff, List.map_eq_nil_iff] at hre
      rw [hre] at hoR
      cases hoR
  · rw [if_neg hre]
    dsimp only
    constructor
    · rintro ⟨r, hr, hraid⟩
      rw [mem_sortRowsDesc] at hr
      obtain ⟨⟨k, b⟩, hkv, hrow⟩ := List.mem_map.mp hr
      have hk1 : k.1 = aid := by rw [← hraid, ← hrow]; rfl
      have hs : (dictGet (List.foldl (bapStep (oppToAccount (liveRenewalOpps O))) []
          (L.filter (fun li =>
            ((liveRenewalOpps O).map (·.sf_id)).contains li.opportunity_sf_id))) k).isSome
          = true := dictGet_isSome_iff_mem.mpr ⟨b, hkv⟩
      rw [foldl_hasKey] at hs
      have hany : (L.filter (fun li =>
          ((liveRenewalOpps O).map (·.sf_id)).contains li.opportunity_sf_id)).any
          (lineContributes (oppToAccount (liveRenewalOpps O)) k) = true := by
        simpa [dictGet_nil] using hs
      obtain ⟨li, hliF, hcon⟩ := List.any_eq_true.mp hany
      have hliL : li ∈ L := (List.mem_filter.mp hliF).1
      unfold lineContributes at hcon
      rw [Bool.and_eq_true] at hcon
      have hdg : dictGet (oppToAccount (liveRenewalOpps O)) li.opportunity_sf_id =
          some k := eq_some_of_beq hcon.1
      obtain ⟨o, hoR, heq⟩ := List.mem_map.mp (mem_of_dictGet_some hdg)
      have hid : o.sf_id = li.opportunity_sf_id := congrArg Prod.fst heq
      have hkey : oppKey o = k := congrArg Prod.snd heq
      refine ⟨o, (mem_liveRenewalOpps.mp hoR).1, (mem_liveRenewalOpps.mp hoR).2,
        ?_, li, hliL, hid.symm, hcon.2⟩
      rw [← hk1, ← hkey]
      rfl
    · rintro ⟨o, hoO, hor, hoaid, li, hliL, hatt, hcnt⟩
      have hoR : o ∈ liveRenewalOpps O := mem_liveRenewalOpps.mpr ⟨hoO, hor⟩
      have hndR : ((liveRenewalOpps O).map (·.sf_id)).Nodup := by
        have hsub : (liveRenewalOpps O).Sublist O :=
          (List.filter_sublist _).trans (List.filter_sublist _)
        exact hnd.sublist (hsub.map _)
      have hotakeys : ((oppToAccount (liveRenewalOpps O)).map Prod.fst) =
          (liveRenewalOpps O).map (·.sf_id) := by
        unfold oppToAccount
        rw [List.map_map]
        rfl
      have hdg : dictGet (oppToAccount (liveRenewalOpps O)) o.sf_id =
          some (oppKey o) :=
        dictGet_eq_of_mem_nodup (by rw [hotakeys]; exact hndR)
          (List.mem_map.mpr ⟨o, hoR, rfl⟩)
      have hcontr : lineContributes (oppToAccount (liveRenewalOpps O)) (oppKey o) li
          = true := by
        unfold lineContributes
        rw [hatt, hdg, hcnt]
        simp
      have hli_in : li ∈ L.filter (fun x =>
          ((liveRenewalOpps O).map (·.sf_id)).contains x.opportunity_sf_id) := by
        rw [List.mem_filter]
        exact ⟨hliL, by
          rw [hatt]
          exact List.elem_iff.mpr (List.mem_map.mpr ⟨o, hoR, rfl⟩)⟩
      have hs : (dictGet (List.foldl (bapStep (oppToAccount (liveRenewalOpps O))) []
          (L.filter (fun x =>
            ((liveRenewalOpps O).map (·.sf_id)).contains x.opportunity_sf_id)))
          (oppKey o)).isSome = true := by
        rw [foldl_hasKey]
        have hany := List.any_eq_true.mpr ⟨li, hli_in, hcontr⟩
        rw [hany]
        simp
      obtain ⟨b, hb⟩ := dictGet_isSome_iff_mem.mp hs
      refine ⟨rowOfCell ((liveRenewalOpps O).foldl endDateStep [])
        (liveRowSegment (A.map (fun a => (a.sf_id, a.segment))) (oppKey o).1)
        (oppKey o, b), ?_, ?_⟩
      · rw [mem_sortRowsDesc]
        exact List.mem_map.mpr ⟨(oppKey o, b), hb, rfl⟩
      · exact hoaid

/-- C2 witness: a store where account A1 owns an open renewal opportunity
with one counted line item, so a row for A1 exists (iff instantiated). -/
theorem arr_rows_iff_counted_line_witness :
    (([⟨"O1", some "Proposal", some "Renewal", some "A1", some "Acme", none⟩] :
        List Opp).map (·.sf_id)).Nodup ∧
    ((∃ r ∈ (getArrByAccountProductData []
        [⟨"O1", some "Proposal", some "Renewal", some "A1", some "Acme", none⟩]
        [⟨"O1", some "Premium Support", some 100⟩]).rows,
        r.account_id = some "A1") ↔
      ∃ o ∈ ([⟨"O1", some "Proposal", some "Renewal", some "A1", some "Acme", none⟩] :
          List Opp), isOpenRenewal o = true ∧ o.account_id = some "A1" ∧
        ∃ li ∈ ([⟨"O1", some "Premium Support", some 100⟩] : List LineItem),
          li.opportunity_sf_id = o.sf_id ∧ lineCounted li = true) :=
  ⟨by decide,
   arr_rows_iff_counted_line [] _ _ (some "A1") (by decide)⟩

/-- C2 counterexample: account A1 owns an open renewal opportunity but
there are no line items at all, and the aggregation produces **no** row
for it — refuting "every such account appears as a row". -/
theorem arr_rows_missing_account_counterexample :
    (∃ o ∈ ([⟨"O1", some "Proposal", some "Renewal", some "A1", some "Acme", none⟩] :
        List Opp), isOpenRenewal o = true ∧ o.account_id = some "A1") ∧
    (getArrByAccountProductData []
      [⟨"O1", some "Proposal", some "Renewal", some "A1", some "Acme", none⟩]
      []).rows = [] := by
  refine ⟨by decide, by with_unfolding_all decide⟩

/-! ## Rounding lemmas -/

theorem ratFloor_eq_intFloor (q : ℚ) : (Rat.floor q : ℤ) = ⌊q⌋ := rfl

theorem round2_idem (x : ℚ) : round2 (round2 x) = round2 x := by
  unfold round2
  rw [ratFloor_eq_intFloor, ratFloor_eq_intFloor]
  have h1 : ((⌊x * 100 + 1 / 2⌋ : ℚ) / 100) * 100 = (⌊x * 100 + 1 / 2⌋ : ℚ) :=
    div_mul_cancel₀ _ (by norm_num)
  rw [h1]
  have h2 : ⌊(⌊x * 100 + 1 / 2⌋ : ℚ) + 1 / 2⌋ = ⌊x * 100 + 1 / 2⌋ := by
    rw [Int.floor_int_add]
    norm_num
  rw [h2]

theorem round2_zero : round2 0 = 0 := by
  unfold round2
  rw [ratFloor_eq_intFloor]
  norm_num

/-! ## C10: grouping by the (account_id, account_name) pair -/

/-- C10: two open renewal opportunities sharing one `account_id` but
carrying different `account_name` strings produce **two distinct rows**,
each with its own `by_product` cell, `total_arr` and
`subscription_end_date`, and the account's ARR is split between them
(the grand total is the rounded sum of the two rounded row totals). -/
theorem rows_split_by_account_name_pair (aid n1 n2 : String) (q1 q2 : ℚ)
    (h1 : n1 ≠ "") (h2 : n2 ≠ "") (h12 : n1 ≠ n2) :
    (getArrByAccountProductData []
      [⟨"O1", some "Proposal", some "Renewal", some aid, some n1, some ⟨2026, 1, 15⟩⟩,
       ⟨"O2", some "Proposal", some "Renewal", some aid, some n2, some ⟨2026, 2, 20⟩⟩]
      [⟨"O1", some "Premium Support", some q1⟩,
       ⟨"O2", some "Premium Support", some q2⟩]).rows.length = 2 ∧
    (∃ r1 ∈ (getArrByAccountProductData []
      [⟨"O1", some "Proposal", some "Renewal", some aid, some n1, some ⟨2026, 1, 15⟩⟩,
       ⟨"O2", some "Proposal", some "Renewal", some aid, some n2, some ⟨2026, 2, 20⟩⟩]
      [⟨"O1", some "Premium Support", some q1⟩,
       ⟨"O2", some "Premium Support", some q2⟩]).rows,
     ∃ r2 ∈ (getArrByAccountProductData []
      [⟨"O1", some "Proposal", some "Renewal", some aid, some n1, some ⟨2026, 1, 15⟩⟩,
       ⟨"O2", some "Proposal", some "Renewal", some aid, some n2, some ⟨2026, 2, 20⟩⟩]
      [⟨"O1", some "Premium Support", some q1⟩,
       ⟨"O2", some "Premium Support", some q2⟩]).rows,
      r1 ≠ r2 ∧
      r1.account_id = some aid ∧ r1.account_name = n1 ∧
      r1.subscription_end_date = some ⟨2026, 1, 15⟩ ∧
      r1.by_product.lookup "Premium Support" = some (round2 (q1 * ARR_MULTIPLIER)) ∧
      r1.total_arr = round2 (q1 * ARR_MULTIPLIER) ∧
      r2.account_id = some aid ∧ r2.account_name = n2 ∧
      r2.subscription_end_date = some ⟨2026, 2, 20⟩ ∧
      r2.by_product.lookup "Premium Support" = some (round2 (q2 * ARR_MULTIPLIER)) ∧
      r2.total_arr = round2 (q2 * ARR_MULTIPLIER)) ∧
    (getArrByAccountProductData []
      [⟨"O1", some "Proposal", some "Renewal", some aid, some n1, some ⟨2026, 1, 15⟩⟩,
       ⟨"O2", some "Proposal", some "Renewal", some aid, some n2, some ⟨2026, 2, 20⟩⟩]
      [⟨"O1", some "Premium Support", some q1⟩,
       ⟨"O2", some "Premium Support", some q2⟩]).grand_total =
      round2 (round2 (q1 * ARR_MULTIPLIER) + round2 (q2 * ARR_MULTIPLIER)) := by
  have hk12 : (((some aid, some n1) : AccKey) == ((some aid, some n2) : AccKey)) = false := by
    rw [beq_eq_false_iff_ne]
    intro he
    exact h12 (Option.some_injective _ (congrArg Prod.snd he))
  have hk21 : (((some aid, some n2) : AccKey) == ((some aid, some n1) : AccKey)) = false := by
    rw [beq_eq_false_iff_ne]
    intro he
    exact h12 (Option.some_injective _ (congrArg Prod.snd he)).symm
  have hota : oppToAccount
      [⟨"O1", some "Proposal", some "Renewal", some aid, some n1, some ⟨2026, 1, 15⟩⟩,
       ⟨"O2", some "Proposal", some "Renewal", some aid, some n2, some ⟨2026, 2, 20⟩⟩] =
      [("O1", ((some aid : Option String), (some n1 : Option String))),
       ("O2", (some aid, some n2))] := by
    unfold oppToAccount oppKey
    simp [nameKey, h1, h2]
  have hstep1 : bapStep
      [("O1", ((some aid : Option String), (some n1 : Option String))),
       ("O2", (some aid, some n2))] []
      ⟨"O1", some "Premium Support", some q1⟩ =
      [(((some aid : Option String), (some n1 : Option String)),
        fun c => if c = "Premium Support" then q1 else (0 : ℚ))] := by
    unfold bapStep
    dsimp only
    rw [show dictGet
        [("O1", ((some aid : Option String), (some n1 : Option String))),
         ("O2", (some aid, some n2))] "O1" =
        some ((some aid : Option String), (some n1 : Option String)) from rfl]
    dsimp only
    rw [if_neg (show ¬((isArrExcludedProduct (some (normalizedProductName (some "Premium Support"))) ||
      isArrExcludedProduct (some "Premium Support")) = true) by decide)]
    rw [if_neg (show ¬(normalizedProductName (some "Premium Support") = "") by decide)]
    rw [if_pos (show (dictGet ([] : List (AccKey × (String → ℚ)))
      ((some aid : Option String), (some n1 : Option String))).isNone = true from rfl)]
    show updateAt [(((some aid : Option String), (some n1 : Option String)),
      fun _ => (0 : ℚ))] _ _ = _
    unfold updateAt
    simp only [List.map_cons, List.map_nil]
    rw [if_pos (show ((((some aid, some n1) : AccKey) ==
      ((some aid, some n1) : AccKey)) = true) by simp)]
    congr 1
    congr 1
    funext c
    rw [show (matchArrProduct (some (normalizedProductName (some "Premium Support")))).getD
      "Other" = "Premium Support" from by decide]
    by_cases hc : c = "Premium Support"
    · rw [if_pos hc, if_pos hc]
      simp
    · rw [if_neg hc, if_neg hc]
  have hstep2 : bapStep
      [("O1", ((some aid : Option String), (some n1 : Option String))),
       ("O2", (some aid, some n2))]
      [(((some aid : Option String), (some n1 : Option String)),
        fun c => if c = "Premium Support" then q1 else (0 : ℚ))]
      ⟨"O2", some "Premium Support", some q2⟩ =
      [(((some aid : Option String), (some n1 : Option String)),
        fun c => if c = "Premium Support" then q1 else (0 : ℚ)),
       (((some aid : Option String), (some n2 : Option String)),
        fun c => if c = "Premium Support" then q2 else (0 : ℚ))] := by
    unfold bapStep
    dsimp only
    rw [show dictGet
        [("O1", ((some aid : Option String), (some n1 : Option String))),
         ("O2", (some aid, some n2))] "O2" =
        some ((some aid : Option String), (some n2 : Option String)) from rfl]
    dsimp only
    rw [if_neg (show ¬((isArrExcludedProduct (some (normalizedProductName (some "Premium Support"))) ||
      isArrExcludedProduct (some "Premium Support")) = true) by decide)]
    rw [if_neg (show ¬(normalizedProductName (some "Premium Support") = "") by decide)]
    have hdgk : dictGet
        [(((some aid : Option String), (some n1 : Option String)),
          fun c => if c = "Premium Support" then q1 else (0 : ℚ))]
        ((some aid : Option String), (some n2 : Option String)) = none := by
      unfold dictGet
      rw [List.reverse_singleton]
      rw [List.find?_cons_of_neg _ (by rw [hk12]; exact Bool.false_ne_true)]
      rfl
    rw [if_pos (by rw [hdgk]; rfl)]
    unfold updateAt
    simp only [List.singleton_append, List.map_cons, List.map_nil]
    rw [if_neg (show ¬((((some aid, some n1) : AccKey) ==
      ((some aid, some n2) : AccKey)) = true) by rw [hk12]; exact Bool.false_ne_true)]
    rw [if_pos (show ((((some aid, some n2) : AccKey) ==
      ((some aid, some n2) : AccKey)) = true) by simp)]
    congr 1
    congr 1
    congr 1
    funext c
    rw [show (matchArrProduct (some (normalizedProductName (some "Premium Support")))).getD
      "Other" = "Premium Support" from by decide]
    by_cases hc : c = "Premium Support"
    · rw [if_pos hc, if_pos hc]
      simp
    · rw [if_neg hc, if_neg hc]
  have haed1 : endDateStep []
      ⟨"O1", some "Proposal", some "Renewal", some aid, some n1, some ⟨2026, 1, 15⟩⟩ =
      [(((some aid : Option String), (some n1 : Option String)),
        some (⟨2026, 1, 15⟩ : Date3))] := by
    unfold endDateStep oppKey
    simp [nameKey, h1, dictGet]
  have haed2 : endDateStep
      [(((some aid : Option String), (some n1 : Option String)),
        some (⟨2026, 1, 15⟩ : Date3))]
      ⟨"O2", some "Proposal", some "Renewal", some aid, some n2, some ⟨2026, 2, 20⟩⟩ =
      [(((some aid : Option String), (some n1 : Option String)),
        some (⟨2026, 1, 15⟩ : Date3)),
       (((some aid : Option String), (some n2 : Option String)),
        some (⟨2026, 2, 20⟩ : Date3))] := by
    unfold endDateStep oppKey
    dsimp only
    have hdgk : dictGet
        [(((some aid : Option String), (some n1 : Option String)),
          some (⟨2026, 1, 15⟩ : Date3))]
        ((some aid : Option String), nameKey (some n2)) = none := by
      unfold dictGet
      rw [List.reverse_singleton]
      rw [List.find?_cons_of_neg _ (by
        simp only [nameKey, if_neg h2]
        rw [hk12]
        exact Bool.false_ne_true)]
      rfl
    rw [hdgk]
    simp [nameKey, h2]
  have hbap : List.foldl (bapStep
      [("O1", ((some aid : Option String), (some n1 : Option String))),
       ("O2", (some aid, some n2))]) []
      [⟨"O1", some "Premium Support", some q1⟩,
       ⟨"O2", some "Premium Support", some q2⟩] =
      [(((some aid : Option String), (some n1 : Option String)),
        fun c => if c = "Premium Support" then q1 else (0 : ℚ)),
       (((some aid : Option String), (some n2 : Option String)),
        fun c => if c = "Premium Support" then q2 else (0 : ℚ))] := by
    rw [List.foldl_cons, hstep1, List.foldl_cons, hstep2, List.foldl_nil]
  have haed : List.foldl endDateStep []
      [⟨"O1", some "Proposal", some "Renewal", some aid, some n1, some ⟨2026, 1, 15⟩⟩,
       ⟨"O2", some "Proposal", some "Renewal", some aid, some n2, some ⟨2026, 2, 20⟩⟩] =
      [(((some aid : Option String), (some n1 : Option String)),
        some (⟨2026, 1, 15⟩ : Date3)),
       (((some aid : Option String), (some n2 : Option String)),
        some (⟨2026, 2, 20⟩ : Date3))] := by
    rw [List.foldl_cons, haed1, List.foldl_cons, haed2, List.foldl_nil]
  have hren : liveRenewalOpps
      [⟨"O1", some "Proposal", some "Renewal", some aid, some n1, some ⟨2026, 1, 15⟩⟩,
       ⟨"O2", some "Proposal", some "Renewal", some aid, some n2, some ⟨2026, 2, 20⟩⟩] =
      [⟨"O1", some "Proposal", some "Renewal", some aid, some n1, some ⟨2026, 1, 15⟩⟩,
       ⟨"O2", some "Proposal", some "Renewal", some aid, some n2, some ⟨2026, 2, 20⟩⟩] := rfl
  have hne : (((liveRenewalOpps
      [⟨"O1", some "Proposal", some "Renewal", some aid, some n1, some ⟨2026, 1, 15⟩⟩,
       ⟨"O2", some "Proposal", some "Renewal", some aid, some n2, some ⟨2026, 2, 20⟩⟩]).map
        (·.sf_id)).isEmpty) = false := rfl
  have hColTotal : ∀ q : ℚ, round2 (sumQ (arrProducts.map (fun p =>
      round2 ((if p = "Premium Support" then q else (0 : ℚ)) * ARR_MULTIPLIER)))) =
      round2 (q * ARR_MULTIPLIER) := by
    intro q
    rw [show arrProducts = ["CRM Platform", "CRM Billing Platform", "Add. CRM Seats",
      "MR Platform", "IQ Platform", "Add. MR/ IQ Locations", "iCampaign Platform",
      "Premium Support", "Other"] from rfl]
    simp only [List.map_cons, List.map_nil]
    rw [if_neg (show ¬(("CRM Platform" : String) = "Premium Support") by decide),
        if_neg (show ¬(("CRM Billing Platform" : String) = "Premium Support") by decide),
        if_neg (show ¬(("Add. CRM Seats" : String) = "Premium Support") by decide),
        if_neg (show ¬(("MR Platform" : String) = "Premium Support") by decide),
        if_neg (show ¬(("IQ Platform" : String) = "Premium Support") by decide),
        if_neg (show ¬(("Add. MR/ IQ Locations" : String) = "Premium Support") by decide),
        if_neg (show ¬(("iCampaign Platform" : String) = "Premium Support") by decide),
        if_neg (show ¬(("Other" : String) = "Premium Support") by decide),
        if_pos (trivial : True)]
    simp only [zero_mul, round2_zero]
    unfold sumQ
    simp only [List.foldl_cons, List.foldl_nil, zero_add, add_zero]
    rw [round2_idem]
  have hkey : getArrByAccountProductData []
      [⟨"O1", some "Proposal", some "Renewal", some aid, some n1, some ⟨2026, 1, 15⟩⟩,
       ⟨"O2", some "Proposal", some "Renewal", some aid, some n2, some ⟨2026, 2, 20⟩⟩]
      [⟨"O1", some "Premium Support", some q1⟩,
       ⟨"O2", some "Premium Support", some q2⟩] =
      { products := arrProducts,
        rows := sortRowsDesc
          [rowOfCell
            [(((some aid : Option String), (some n1 : Option String)),
              some (⟨2026, 1, 15⟩ : Date3)),
             (((some aid : Option String), (some n2 : Option String)),
              some (⟨2026, 2, 20⟩ : Date3))]
            (liveRowSegment [] (some aid))
            (((some aid : Option String), (some n1 : Option String)),
              fun c => if c = "Premium Support" then q1 else (0 : ℚ)),
           rowOfCell
            [(((some aid : Option String), (some n1 : Option String)),
              some (⟨2026, 1, 15⟩ : Date3)),
             (((some aid : Option String), (some n2 : Option String)),
              some (⟨2026, 2, 20⟩ : Date3))]
            (liveRowSegment [] (some aid))
            (((some aid : Option String), (some n2 : Option String)),
              fun c => if c = "Premium Support" then q2 else (0 : ℚ))],
        total_by_product := arrProducts.map (fun p =>
          (p, round2 (sumQ (List.map (fun kv => round2 (kv.2 p * ARR_MULTIPLIER))
            [(((some aid : Option String), (some n1 : Option String)),
              fun c => if c = "Premium Support" then q1 else (0 : ℚ)),
             (((some aid : Option String), (some n2 : Option String)),
              fun c => if c = "Premium Support" then q2 else (0 : ℚ))])))),
        grand_total := round2 (sumQ (List.map (fun x => x.total_arr)
          [rowOfCell
            [(((some aid : Option String), (some n1 : Option String)),
              some (⟨2026, 1, 15⟩ : Date3)),
             (((some aid : Option String), (some n2 : Option String)),
              some (⟨2026, 2, 20⟩ : Date3))]
            (liveRowSegment [] (some aid))
            (((some aid : Option String), (some n1 : Option String)),
              fun c => if c = "Premium Support" then q1 else (0 : ℚ)),
           rowOfCell
            [(((some aid : Option String), (some n1 : Option String)),
              some (⟨2026, 1, 15⟩ : Date3)),
             (((some aid : Option String), (some n2 : Option String)),
              some (⟨2026, 2, 20⟩ : Date3))]
            (liveRowSegment [] (some aid))
            (((some aid : Option String), (some n2 : Option String)),
              fun c => if c = "Premium Support" then q2 else (0 : ℚ))])) } := by
    unfold getArrByAccountProductData
    rw [if_neg (by rw [hne]; exact Bool.false_ne_true)]
    dsimp only
    rw [hren, hota]
    rw [show (([⟨"O1", some "Premium Support", some q1⟩,
        ⟨"O2", some "Premium Support", some q2⟩] : List LineItem).filter (fun li =>
          (([⟨"O1", some "Proposal", some "Renewal", some aid, some n1, some ⟨2026, 1, 15⟩⟩,
             ⟨"O2", some "Proposal", some "Renewal", some aid, some n2, some ⟨2026, 2, 20⟩⟩] :
             List Opp).map (·.sf_id)).contains li.opportunity_sf_id)) =
        [⟨"O1", some "Premium Support", some q1⟩,
         ⟨"O2", some "Premium Support", some q2⟩] from rfl]
    rw [hbap, haed]
    rfl
  have hdd1 : dictGet
      [(((some aid : Option String), (some n1 : Option String)),
        some (⟨2026, 1, 15⟩ : Date3)),
       (((some aid : Option String), (some n2 : Option String)),
        some (⟨2026, 2, 20⟩ : Date3))]
      ((some aid : Option String), (some n1 : Option String)) =
      some (some ⟨2026, 1, 15⟩) := by
    unfold dictGet
    rw [show ([(((some aid : Option String), (some n1 : Option String)),
        some (⟨2026, 1, 15⟩ : Date3)),
       (((some aid : Option String), (some n2 : Option String)),
        some (⟨2026, 2, 20⟩ : Date3))].reverse) =
      [(((some aid : Option String), (some n2 : Option String)),
        some (⟨2026, 2, 20⟩ : Date3)),
       (((some aid : Option String), (some n1 : Option String)),
        some (⟨2026, 1, 15⟩ : Date3))] from by simp]
    rw [List.find?_cons_of_neg _ (by rw [hk21]; exact Bool.false_ne_true)]
    rw [List.find?_cons_of_pos _ (by simp)]
    rfl
  have hdd2 : dictGet
      [(((some aid : Option String), (some n1 : Option String)),
        some (⟨2026, 1, 15⟩ : Date3)),
       (((some aid : Option String), (some n2 : Option String)),
        some (⟨2026, 2, 20⟩ : Date3))]
      ((some aid : Option String), (some n2 : Option String)) =
      some (some ⟨2026, 2, 20⟩) := by
    unfold dictGet
    rw [show ([(((some aid : Option String), (some n1 : Option String)),
        some (⟨2026, 1, 15⟩ : Date3)),
       (((some aid : Option String), (some n2 : Option String)),
        some (⟨2026, 2, 20⟩ : Date3))].reverse) =
      [(((some aid : Option String), (some n2 : Option String)),
        some (⟨2026, 2, 20⟩ : Date3)),
       (((some aid : Option String), (some n1 : Option String)),
        some (⟨2026, 1, 15⟩ : Date3))] from by simp]
    rw [List.find?_cons_of_pos _ (by simp)]
    rfl
  have ht1 : (rowOfCell
      [(((some aid : Option String), (some n1 : Option String)),
        some (⟨2026, 1, 15⟩ : Date3)),
       (((some aid : Option String), (some n2 : Option String)),
        some (⟨2026, 2, 20⟩ : Date3))]
      (liveRowSegment [] (some aid))
      (((some aid : Option String), (some n1 : Option String)),
        fun c => if c = "Premium Support" then q1 else (0 : ℚ))).total_arr =
      round2 (q1 * ARR_MULTIPLIER) := hColTotal q1
  have ht2 : (rowOfCell
      [(((some aid : Option String), (some n1 : Option String)),
        some (⟨2026, 1, 15⟩ : Date3)),
       (((some aid : Option String), (some n2 : Option String)),
        some (⟨2026, 2, 20⟩ : Date3))]
      (liveRowSegment [] (some aid))
      (((some aid : Option String), (some n2 : Option String)),
        fun c => if c = "Premium Support" then q2 else (0 : ℚ))).total_arr =
      round2 (q2 * ARR_MULTIPLIER) := hColTotal q2
  refine ⟨?_, ?_, ?_⟩
  · rw [hkey]
    dsimp only
    rw [(sortRowsDesc_perm _).length_eq]
    rfl
  · refine ⟨rowOfCell
      [(((some aid : Option String), (some n1 : Option String)),
        some (⟨2026, 1, 15⟩ : Date3)),
       (((some aid : Option String), (some n2 : Option String)),
        some (⟨2026, 2, 20⟩ : Date3))]
      (liveRowSegment [] (some aid))
      (((some aid : Option String), (some n1 : Option String)),
        fun c => if c = "Premium Support" then q1 else (0 : ℚ)), ?_,
      rowOfCell
      [(((some aid : Option String), (some n1 : Option String)),
        some (⟨2026, 1, 15⟩ : Date3)),
       (((some aid : Option String), (some n2 : Option String)),
        some (⟨2026, 2, 20⟩ : Date3))]
      (liveRowSegment [] (some aid))
      (((some aid : Option String), (some n2 : Option String)),
        fun c => if c = "Premium Support" then q2 else (0 : ℚ)), ?_,
      ?_, rfl, ?_, ?_, ?_, ?_, rfl, ?_, ?_, ?_, ?_⟩
    · rw [hkey]
      dsimp only
      exact mem_sortRowsDesc.mpr (List.mem_cons_self _ _)
    · rw [hkey]
      dsimp only
      exact mem_sortRowsDesc.mpr (List.mem_cons_of_mem _ (List.mem_cons_self _ _))
    · intro he
      have hnm := congrArg ArrRow.account_name he
      apply h12
      have h1' : displayName (some n1) = n1 := by
        simp [displayName, h1]
      have h2' : displayName (some n2) = n2 := by
        simp [displayName, h2]
      rw [show (rowOfCell _ (liveRowSegment [] (some aid))
        (((some aid : Option String), (some n1 : Option String)),
          fun c => if c = "Premium Support" then q1 else (0 : ℚ))).account_name =
        displayName (some n1) from rfl] at hnm
      rw [show (rowOfCell _ (liveRowSegment [] (some aid))
        (((some aid : Option String), (some n2 : Option String)),
          fun c => if c = "Premium Support" then q2 else (0 : ℚ))).account_name =
        displayName (some n2) from rfl] at hnm
      rw [h1', h2'] at hnm
      exact hnm
    · show displayName (some n1) = n1
      simp [displayName, h1]
    · show (dictGet _ ((some aid : Option String), (some n1 : Option String))).join =
        some (⟨2026, 1, 15⟩ : Date3)
      rw [hdd1]
      rfl
    · show (arrProducts.map (fun p => (p, round2
        ((if p = "Premium Support" then q1 else (0 : ℚ)) * ARR_MULTIPLIER)))).lookup
        "Premium Support" = some (round2 (q1 * ARR_MULTIPLIER))
      rw [lookup_map_self _ arrProducts_nodup (by decide)]
      rw [if_pos rfl]
    · exact ht1
    · show displayName (some n2) = n2
      simp [displayName, h2]
    · show (dictGet _ ((some aid : Option String), (some n2 : Option String))).join =
        some (⟨2026, 2, 20⟩ : Date3)
      rw [hdd2]
      rfl
    · show (arrProducts.map (fun p => (p, round2
        ((if p = "Premium Support" then q2 else (0 : ℚ)) * ARR_MULTIPLIER)))).lookup
        "Premium Support" = some (round2 (q2 * ARR_MULTIPLIER))
      rw [lookup_map_self _ arrProducts_nodup (by decide)]
      rw [if_pos rfl]
    · exact ht2
  · rw [hkey]
    dsimp only
    rw [List.map_cons, List.map_cons, List.map_nil, ht1, ht2]
    unfold sumQ
    rw [List.foldl_cons, List.foldl_cons, List.foldl_nil, zero_add]

/-- Witness for C10 at aid = "A1", n1 = "Acme", n2 = "Acme Corp", q1 = 100, q2 = 50. -/
theorem rows_split_by_account_name_pair_witness :
    (getArrByAccountProductData []
      [⟨"O1", some "Proposal", some "Renewal", some "A1", some "Acme", some ⟨2026, 1, 15⟩⟩,
       ⟨"O2", some "Proposal", some "Renewal", some "A1", some "Acme Corp", some ⟨2026, 2, 20⟩⟩]
      [⟨"O1", some "Premium Support", some (100 : ℚ)⟩,
       ⟨"O2", some "Premium Support", some (50 : ℚ)⟩]).rows.length = 2 ∧
    (∃ r1 ∈ (getArrByAccountProductData []
      [⟨"O1", some "Proposal", some "Renewal", some "A1", some "Acme", some ⟨2026, 1, 15⟩⟩,
       ⟨"O2", some "Proposal", some "Renewal", some "A1", some "Acme Corp", some ⟨2026, 2, 20⟩⟩]
      [⟨"O1", some "Premium Support", some (100 : ℚ)⟩,
       ⟨"O2", some "Premium Support", some (50 : ℚ)⟩]).rows,
     ∃ r2 ∈ (getArrByAccountProductData []
      [⟨"O1", some "Proposal", some "Renewal", some "A1", some "Acme", some ⟨2026, 1, 15⟩⟩,
       ⟨"O2", some "Proposal", some "Renewal", some "A1", some "Acme Corp", some ⟨2026, 2, 20⟩⟩]
      [⟨"O1", some "Premium Support", some (100 : ℚ)⟩,
       ⟨"O2", some "Premium Support", some (50 : ℚ)⟩]).rows,
      r1 ≠ r2 ∧
      r1.account_id = some "A1" ∧ r1.account_name = "Acme" ∧
      r1.subscription_end_date = some ⟨2026, 1, 15⟩ ∧
      r1.by_product.lookup "Premium Support" = some (round2 ((100 : ℚ) * ARR_MULTIPLIER)) ∧
      r1.total_arr = round2 ((100 : ℚ) * ARR_MULTIPLIER) ∧
      r2.account_id = some "A1" ∧ r2.account_name = "Acme Corp" ∧
      r2.subscription_end_date = some ⟨2026, 2, 20⟩ ∧
      r2.by_product.lookup "Premium Support" = some (round2 ((50 : ℚ) * ARR_MULTIPLIER)) ∧
      r2.total_arr = round2 ((50 : ℚ) * ARR_MULTIPLIER)) ∧
    (getArrByAccountProductData []
      [⟨"O1", some "Proposal", some "Renewal", some "A1", some "Acme", some ⟨2026, 1, 15⟩⟩,
       ⟨"O2", some "Proposal", some "Renewal", some "A1", some "Acme Corp", some ⟨2026, 2, 20⟩⟩]
      [⟨"O1", some "Premium Support", some (100 : ℚ)⟩,
       ⟨"O2", some "Premium Support", some (50 : ℚ)⟩]).grand_total =
      round2 (round2 ((100 : ℚ) * ARR_MULTIPLIER) + round2 ((50 : ℚ) * ARR_MULTIPLIER)) :=
  rows_split_by_account_name_pair "A1" "Acme" "Acme Corp" 100 50
    (by decide) (by decide) (by decide)

/-! ## C1: the snapshot round-trip

Supporting lemmas: `strip` is idempotent, `dictGet` over a mapped
association list is a `find?` over the original list, a guarded fold is a
fold over a filter, and every key of the accumulated `by_account_product`
dict is the grouping key of some renewal opportunity. -/

theorem dropWhile_len_le {α : Type} (p : α → Bool) (l : List α) :
    (l.dropWhile p).length ≤ l.length := by
  induction l with
  | nil => simp
  | cons a t ih =>
    rw [List.dropWhile_cons]
    by_cases h : p a = true
    · rw [if_pos h]; exact le_trans ih (Nat.le_succ _)
    · rw [if_neg h]

theorem dropWhile_prefix_self {α : Type} {p : α → Bool} {m t : List α}
    (hpre : t <+: m) (hm : m.dropWhile p = m) : t.dropWhile p = t := by
  cases t with
  | nil => rfl
  | cons c t' =>
    obtain ⟨r, hr⟩ := hpre
    rw [List.cons_append] at hr
    subst hr
    rw [List.dropWhile_cons] at hm ⊢
    by_cases h : p c = true
    · rw [if_pos h] at hm
      have hlen := congrArg List.length hm
      rw [List.length_cons] at hlen
      have hle := dropWhile_len_le p (t' ++ r)
      omega
    · rw [if_neg h]

theorem stripData_idem (l : List Char) : stripData (stripData l) = stripData l := by
  show List.rdropWhile isPyWs
      ((List.rdropWhile isPyWs (l.dropWhile isPyWs)).dropWhile isPyWs) =
    List.rdropWhile isPyWs (l.dropWhile isPyWs)
  rw [dropWhile_prefix_self (List.rdropWhile_prefix isPyWs (l.dropWhile isPyWs))
      (List.dropWhile_idempotent isPyWs l)]
  exact List.rdropWhile_idempotent isPyWs (l.dropWhile isPyWs)

theorem stripStr_idem (s : String) : stripStr (stripStr s) = stripStr s := by
  unfold stripStr
  exact congrArg String.mk (stripData_idem s.data)

/-- The decode path re-strips and re-defaults the already
stripped-and-defaulted segment written by the encoder; the composite is
the single application. -/
theorem pyOrStrip_idem (s : String) :
    pyOrStr (stripStr (pyOrStr (stripStr s) DEFAULT_SEGMENT)) DEFAULT_SEGMENT =
      pyOrStr (stripStr s) DEFAULT_SEGMENT := by
  by_cases h : stripStr s = ""
  · rw [h]; decide
  · rw [show pyOrStr (stripStr s) DEFAULT_SEGMENT = stripStr s from by
      unfold pyOrStr; rw [if_neg h]]
    rw [stripStr_idem]
    unfold pyOrStr
    rw [if_neg h]

theorem dictGet_map_pair {α β γ : Type} [BEq β] (l : List α) (g : α → β × γ) (a : β) :
    dictGet (l.map g) a =
      (l.reverse.find? (fun x => (g x).1 == a)).map (fun x => (g x).2) := by
  unfold dictGet
  rw [← List.map_reverse, List.find?_map, Option.map_map]
  rfl

/-- The decode path's guarded fold over all line items equals the live
path's fold over the pre-filtered line items. -/
theorem bap_foldl_guard (ota : List (String × AccKey)) (ids : List String) :
    ∀ (l : List LineItem) (init : List (AccKey × (String → ℚ))),
      l.foldl (fun m li =>
        if !ids.contains li.opportunity_sf_id then m else bapStep ota m li) init =
      (l.filter (fun li => ids.contains li.opportunity_sf_id)).foldl
        (bapStep ota) init := by
  intro l
  induction l with
  | nil => intro init; rfl
  | cons li t ih =>
    intro init
    rw [List.foldl_cons, List.filter_cons]
    cases h : ids.contains li.opportunity_sf_id with
    | true =>
      rw [if_neg (show ¬((!true) = true) by decide),
        if_pos (show true = true from rfl), List.foldl_cons]
      exact ih _
    | false =>
      rw [if_pos (show (!false) = true from rfl),
        if_neg (show ¬(false = true) by decide)]
      exact ih _

/-- One `bapStep` keeps every accumulated key a value of `opp_to_account`. -/
theorem bapStep_keys_subset (ota : List (String × AccKey))
    (m : List (AccKey × (String → ℚ))) (li : LineItem)
    (inv : ∀ kv ∈ m, kv.1 ∈ ota.map (·.2)) :
    ∀ kv ∈ bapStep ota m li, kv.1 ∈ ota.map (·.2) := by
  intro kv hkv
  unfold bapStep at hkv
  cases hd : dictGet ota li.opportunity_sf_id with
  | none => rw [hd] at hkv; exact inv kv hkv
  | some acc =>
    rw [hd] at hkv
    dsimp only at hkv
    have hacc : acc ∈ ota.map (·.2) :=
      List.mem_map.mpr ⟨(li.opportunity_sf_id, acc), mem_of_dictGet_some hd, rfl⟩
    by_cases hex : (isArrExcludedProduct (some (normalizedProductName li.product_name)) ||
        isArrExcludedProduct li.product_name) = true
    · rw [if_pos hex] at hkv; exact inv kv hkv
    · rw [if_neg hex] at hkv
      by_cases hraw : normalizedProductName li.product_name = ""
      · rw [if_pos hraw] at hkv; exact inv kv hkv
      · rw [if_neg hraw] at hkv
        unfold updateAt at hkv
        obtain ⟨p, hp, hpe⟩ := List.mem_map.mp hkv
        have hk1 : kv.1 = p.1 := by
          by_cases hb : (p.1 == acc) = true
          · rw [if_pos hb] at hpe; rw [← hpe]
          · rw [if_neg hb] at hpe; rw [← hpe]
        rw [hk1]
        by_cases hnone : (dictGet m acc).isNone = true
        · rw [if_pos hnone] at hp
          rcases List.mem_append.mp hp with hp' | hp'
          · exact inv p hp'
          · rw [List.mem_singleton.mp hp']; exact hacc
        · rw [if_neg hnone] at hp
          exact inv p hp

/-- Every key of the folded `by_account_product` dict is the grouping key
of some renewal opportunity. -/
theorem foldl_bap_keys_subset (ota : List (String × AccKey)) :
    ∀ (l : List LineItem) (init : List (AccKey × (String → ℚ))),
      (∀ kv ∈ init, kv.1 ∈ ota.map (·.2)) →
      ∀ kv ∈ l.foldl (bapStep ota) init, kv.1 ∈ ota.map (·.2) := by
  intro l
  induction l with
  | nil => intro init inv; exact inv
  | cons li t ih =>
    intro init inv
    rw [List.foldl_cons]
    exact ih _ (bapStep_keys_subset ota init li inv)

/-- For a row key whose non-empty `account_id` has a matching account
record, the decode path's segment (`account_segment.get(aid) if aid else
DEFAULT_SEGMENT` over the payload's pre-defaulted segments) equals the
live path's segment (`(account_segment.get(aid) or "").strip() or
DEFAULT_SEGMENT`). -/
theorem seg_decode_eq_live (A : List Account) (aid : Option String)
    (H : ∀ a, aid = some a → a ≠ "" → a ∈ A.map (·.sf_id)) :
    snapshotRowSegment ((A.map (fun x =>
      ({ sf_id := x.sf_id,
         segment := pyOrStr (stripStr (x.segment.getD "")) DEFAULT_SEGMENT } :
         PayloadAccount))).map
      (fun x => (x.sf_id, pyOrStr (stripStr x.segment) DEFAULT_SEGMENT))) aid =
    liveRowSegment (A.map (fun x => (x.sf_id, x.segment))) aid := by
  cases aid with
  | none => rfl
  | some a =>
    by_cases ha : a = ""
    · subst ha; rfl
    · unfold snapshotRowSegment
      dsimp only
      rw [if_neg ha]
      have hmem : a ∈ A.map (·.sf_id) := H a rfl ha
      rw [List.map_map, dictGet_map_pair]
      unfold liveRowSegment
      dsimp only
      rw [if_neg ha]
      rw [dictGet_map_pair]
      dsimp only [Function.comp]
      have hsome : (A.reverse.find? (fun x => x.sf_id == a)).isSome = true := by
        rw [List.find?_isSome]
        obtain ⟨x, hx, hxa⟩ := List.mem_map.mp hmem
        exact ⟨x, List.mem_reverse.mpr hx, by rw [show x.sf_id = a from hxa]; exact beq_self_eq_true a⟩
      obtain ⟨acc, hacc⟩ := Option.isSome_iff_exists.mp hsome
      rw [hacc]
      rw [Option.map_some', Option.map_some']
      exact congrArg some (pyOrStrip_idem (acc.segment.getD ""))

/-- C1 (amended): the snapshot round-trip reproduces the live ARR table
whenever (i) every stored opportunity has a non-null `stage_name`,
(ii) every non-empty `account_id` on an opportunity has a matching
account record, and (iii) at least one open renewal opportunity exists.
Outside these conditions the two paths disagree (see the
counterexample): on an empty renewal set the live path returns an empty
`products` list while the decode path returns the full column list; a
null `stage_name` is open for the decode path but filtered out live; and
a dangling `account_id` gets `DEFAULT_SEGMENT` live but a null segment
in the decode path. -/
theorem snapshot_roundtrip_equiv (accounts : List Account)
    (opportunities : List Opp) (line_items : List LineItem)
    (H1 : opportunities.all (fun o => o.stage_name.isSome) = true)
    (H2 : opportunities.all (fun o =>
      match o.account_id with
      | none => true
      | some a => (a == "") || (accounts.map (·.sf_id)).contains a) = true)
    (H3 : liveRenewalOpps opportunities ≠ []) :
    arrFromSnapshotPayload (takeSalesforceEodSnapshot accounts opportunities line_items) =
      getArrByAccountProductData accounts opportunities line_items := by
  have hopen : opportunities.filter
      (fun o => !CLOSED_STAGES.contains (o.stage_name.getD "")) =
      liveOpenOpps opportunities := by
    unfold liveOpenOpps
    apply List.filter_congr
    intro o ho
    have h1 := (List.all_eq_true.mp H1) o ho
    cases hs : o.stage_name with
    | none => rw [hs] at h1; exact absurd h1 (by simp)
    | some s => unfold isOpenOpp; rw [hs]; rfl
  have hren : (opportunities.filter
      (fun o => !CLOSED_STAGES.contains (o.stage_name.getD ""))).filter
      (fun o => isRenewalRecordType o.record_type_name) =
      liveRenewalOpps opportunities := by
    rw [hopen]; rfl
  have hne : ((liveRenewalOpps opportunities).map (fun o => o.sf_id)).isEmpty = false := by
    cases h : liveRenewalOpps opportunities with
    | nil => exact absurd h H3
    | cons a t => rfl
  unfold arrFromSnapshotPayload takeSalesforceEodSnapshot getArrByAccountProductData
  dsimp only
  rw [hren]
  rw [hne]
  rw [if_neg Bool.false_ne_true, if_neg Bool.false_ne_true]
  rw [bap_foldl_guard]
  have hrows : ∀ kv ∈ (line_items.filter (fun li =>
        ((liveRenewalOpps opportunities).map (fun o => o.sf_id)).contains
          li.opportunity_sf_id)).foldl
        (bapStep (oppToAccount (liveRenewalOpps opportunities))) [],
      rowOfCell ((liveRenewalOpps opportunities).foldl endDateStep [])
        (snapshotRowSegment ((accounts.map (fun x =>
          ({ sf_id := x.sf_id,
             segment := pyOrStr (stripStr (x.segment.getD "")) DEFAULT_SEGMENT } :
             PayloadAccount))).map
          (fun x => (x.sf_id, pyOrStr (stripStr x.segment) DEFAULT_SEGMENT))) kv.1.1)
        kv =
      rowOfCell ((liveRenewalOpps opportunities).foldl endDateStep [])
        (liveRowSegment (accounts.map (fun x => (x.sf_id, x.segment))) kv.1.1) kv := by
    intro kv hkv
    have hprov : kv.1 ∈ (oppToAccount (liveRenewalOpps opportunities)).map (·.2) :=
      foldl_bap_keys_subset (oppToAccount (liveRenewalOpps opportunities)) _ []
        (fun kv h => absurd h (List.not_mem_nil kv)) kv hkv
    have hH : ∀ a, kv.1.1 = some a → a ≠ "" → a ∈ accounts.map (·.sf_id) := by
      intro a ha hane
      obtain ⟨pr, hpr, hpre⟩ := List.mem_map.mp hprov
      unfold oppToAccount at hpr
      obtain ⟨o, ho, hoe⟩ := List.mem_map.mp hpr
      have hid : kv.1.1 = o.account_id := by
        rw [← hpre, ← hoe]
        rfl
      have hoO : o ∈ opportunities := (mem_liveRenewalOpps.mp ho).1
      have h2 := (List.all_eq_true.mp H2) o hoO
      rw [hid] at ha
      rw [ha] at h2
      dsimp only at h2
      rcases Bool.or_eq_true_iff.mp h2 with hbe | hco
      · exact absurd (eq_of_beq hbe) hane
      · exact List.mem_of_elem_eq_true hco
    exact congrArg
      (fun s => rowOfCell ((liveRenewalOpps opportunities).foldl endDateStep []) s kv)
      (seg_decode_eq_live accounts kv.1.1 hH)
  rw [List.map_congr_left hrows]

/-- Witness for the amended C1 at a one-account, one-opportunity,
one-line store satisfying all three hypotheses. -/
theorem snapshot_roundtrip_equiv_witness :
    arrFromSnapshotPayload (takeSalesforceEodSnapshot
      [⟨"A1", some " Enterprise "⟩]
      [⟨"O1", some "Proposal", some "Renewal", some "A1", some "Acme", some ⟨2026, 1, 15⟩⟩]
      [⟨"O1", some "Premium Support", some (100 : ℚ)⟩]) =
    getArrByAccountProductData
      [⟨"A1", some " Enterprise "⟩]
      [⟨"O1", some "Proposal", some "Renewal", some "A1", some "Acme", some ⟨2026, 1, 15⟩⟩]
      [⟨"O1", some "Premium Support", some (100 : ℚ)⟩] :=
  snapshot_roundtrip_equiv
    [⟨"A1", some " Enterprise "⟩]
    [⟨"O1", some "Proposal", some "Renewal", some "A1", some "Acme", some ⟨2026, 1, 15⟩⟩]
    [⟨"O1", some "Premium Support", some (100 : ℚ)⟩]
    (by decide) (by decide) (by decide)

/-- C1 counterexample: on the empty store the decode path returns the
full `products` column list while the live path returns an empty one, so
the unconditional round-trip equivalence claimed by the spec fails. -/
theorem snapshot_roundtrip_counterexample :
    arrFromSnapshotPayload (takeSalesforceEodSnapshot [] [] []) ≠
      getArrByAccountProductData [] [] [] := by
  with_unfolding_all decide

end DazosArr
